import Mathlib

/-!
Verification development for the Sound-Therapy repository.

The repository implements a browser relaxation app with two audio views:
a single-channel `SoundPlayer` and a four-slot `SoundBoard` mixer, both
built over Tone.js.  This file gives a shallow embedding of the audio
lifecycle logic of those components (SoundPlayer.tsx and SoundBoard.tsx):

* Tone.js nodes (oscillators, noises, players, filters) are modelled as
  numeric handles allocated from a monotone counter; `dispose` marks a
  handle dead.  `stop` and `start` on a node do not change handle
  liveness and carry no modelled state.
* React `useState`/`useRef` pairs that always hold the same value
  (e.g. `oscillator`/`oscillatorRef`) are modelled as a single field.
* `await` points are modelled by splitting functions into phases where
  an interleaving matters; otherwise an operation is one state
  transition.  Asynchronous file decoding is modelled by an environment
  describing when (in 100 ms poll units) the buffer reports loaded,
  whether `load()` rejects, and the final buffer duration.
* `alert(...)` calls are collected in an `alerts` list (user-visible);
  `console.warn`/`console.error` messages relevant to the claims are
  collected in a `warnings` list (console only, not user-visible).
* Out-of-range slot ids never occur in the UI (buttons pass `slot.id`
  of an existing slot); the model makes such accesses no-ops.
* `Tone.start` and the synthetic-source constructors are modelled as
  succeeding unless the environment says otherwise; their failure paths
  are outside the claims below except where modelled explicitly.
-/

/-! ## Handle heap

Tone.js node objects are modelled by numeric handles.  `next` is the
next fresh handle id; `dead` lists disposed handles. -/

structure Heap where
  next : Nat
  dead : List Nat
  deriving DecidableEq, Repr

def Heap.alloc (h : Heap) : Nat × Heap :=
  (h.next, { h with next := h.next + 1 })

/-- `x?.stop().dispose()` on an optional handle: mark it dead if present. -/
def Heap.dispose (h : Heap) (o : Option Nat) : Heap :=
  match o with
  | none => h
  | some id => { h with dead := id :: h.dead }

/-- A handle is alive when it has been allocated and not disposed. -/
def Heap.alive (h : Heap) (id : Nat) : Bool :=
  decide (id < h.next) && !(decide (id ∈ h.dead))

def Heap.empty : Heap := { next := 0, dead := [] }

/-- Heap evolution: the allocation counter grows and disposed handles
stay disposed. -/
def heapLE (h h2 : Heap) : Prop :=
  h.next ≤ h2.next ∧ ∀ id, id ∈ h.dead → id ∈ h2.dead

theorem heapLE_refl (h : Heap) : heapLE h h :=
  ⟨Nat.le_refl _, fun _ hm => hm⟩

theorem heapLE_trans {a b c : Heap} (hab : heapLE a b) (hbc : heapLE b c) :
    heapLE a c :=
  ⟨Nat.le_trans hab.1 hbc.1, fun id hm => hbc.2 id (hab.2 id hm)⟩

theorem heapLE_dispose (h : Heap) (o : Option Nat) : heapLE h (h.dispose o) := by
  cases o with
  | none => exact heapLE_refl h
  | some id =>
    exact ⟨Nat.le_refl _, fun j hj => List.mem_cons_of_mem _ hj⟩

theorem heapLE_alloc (h : Heap) : heapLE h (h.alloc).2 :=
  ⟨Nat.le_succ _, fun _ hm => hm⟩

theorem alive_of_alive_heapLE {h h2 : Heap} {id : Nat}
    (hle : heapLE h h2) (hlt : id < h.next) (ha : h2.alive id = true) :
    h.alive id = true := by
  unfold Heap.alive at ha ⊢
  simp only [Bool.and_eq_true, Bool.not_eq_true', decide_eq_true_eq,
    decide_eq_false_iff_not] at ha ⊢
  exact ⟨hlt, fun hm => ha.2 (hle.2 id hm)⟩

theorem alive_dead {h : Heap} {id : Nat} (hm : id ∈ h.dead) :
    h.alive id = false := by
  unfold Heap.alive
  simp [hm]

/-! ## Sound catalog

`SoundType` and `SOUNDS` from SoundPlayer.tsx: a sound is a fixed
frequency, a noise-colour tag, or a file reference. -/

inductive SoundType where
  | freq (hz : Nat)
  | noise (color : String)
  | file (path : String)
  deriving DecidableEq, Repr

def SOUNDS : List (String × SoundType) := [
  ("174 Hz (Grounding)", SoundType.file "/174hz.mp3"),
  ("285 Hz (Tissue Regeneration)", SoundType.file "/285hz.mp3"),
  ("396 Hz (Release Fear)", SoundType.file "/396hz.mp3"),
  ("417 Hz (Clear Negativity)", SoundType.file "/417hz.mp3"),
  ("528 Hz (Love/Miracle)", SoundType.file "/528hz.mp3"),
  ("639 Hz (Emotional Harmony)", SoundType.file "/639hz.mp3"),
  ("741 Hz (Detoxification)", SoundType.file "/741hz.mp3"),
  ("852 Hz (Third Eye)", SoundType.file "/852hz.mp3"),
  ("963 Hz (Crown Chakra)", SoundType.file "/963hz.mp3"),
  ("Pink Noise", SoundType.file "/pink-noise.mp3"),
  ("Brown Noise", SoundType.file "/brown-noise.mp3"),
  ("White Noise", SoundType.file "/white-noise.mp3"),
  ("Green Noise", SoundType.noise "green"),
  ("Green Noise 2", SoundType.noise "green"),
  ("Deschutes River", SoundType.file "/deschutes-river.mp3"),
  ("Lovejoy Fountain", SoundType.file "/lovejoy-fountain.mp3"),
  ("Multnomah Falls", SoundType.file "/multnomah-falls.mp3"),
  ("Spring Rain", SoundType.file "/spring-rain.mp3"),
  ("Tucson Stream", SoundType.file "/tucson-stream.mp3"),
  ("Wind Chimes", SoundType.file "/wind-chimes.mp3"),
  ("Cat Purr", SoundType.file "/cat-purr.mp3"),
  ("Wind", SoundType.file "/wind.mp3"),
  ("Bath Sound", SoundType.noise "bath"),
  ("Healing (432 Hz)", SoundType.freq 432),
  ("Mental Clarity (825 Hz)", SoundType.freq 825),
  ("Alpha Waves", SoundType.freq 12),
  ("Theta Waves", SoundType.freq 6)]

/-- `SOUNDS[selectedSound]` lookup. -/
def findSound (name : String) : Option SoundType :=
  (SOUNDS.find? (fun p => p.1 == name)).map (fun p => p.2)

/-! ## Asynchronous file loading

The environment describes how the platform behaves for one
`Tone.Player` load: whether `player.load(url)` rejects (with which
message), after how many 100 ms waits the buffer reports `loaded`
(`none` = never), and the decoded buffer duration (`durationNaN` for a
NaN duration). -/

structure FileLoadEnv where
  loadThrows : Option String
  loadedAt : Option Nat
  duration : Nat
  durationNaN : Bool
  deriving DecidableEq, Repr

/-- `audioPlayer.buffer && audioPlayer.buffer.loaded` after `waits`
100 ms waits have elapsed since `load()` resolved. -/
def bufferLoaded (env : FileLoadEnv) (waits : Nat) : Bool :=
  match env.loadedAt with
  | none => false
  | some k => decide (k ≤ waits)

/-- One bounded run of the retry-loop body: the loop condition caps
`attempts` at 50, so `50 - attempts` iterations of fuel make the
recursion structural without changing the computed value. -/
def pollBufferFuel (env : FileLoadEnv) : Nat → Nat → Nat
  | 0, attempts => attempts
  | fuel + 1, attempts =>
    if bufferLoaded env attempts = false ∧ attempts < 50 then
      pollBufferFuel env fuel (attempts + 1)
    else
      attempts

/-- The retry loop
`while ((!buffer || !buffer.loaded) && attempts < 50) { wait 100ms; attempts++ }`
shared by SoundPlayer.toggleSound and SoundBoard.loadSound.  Returns
the final value of `attempts`. -/
def pollBuffer (env : FileLoadEnv) (attempts : Nat) : Nat :=
  pollBufferFuel env (50 - attempts) attempts

/-- Outcome of the file-load sequence of either component. -/
structure FileLoadResult where
  started : Bool
  errorMsg : Option String
  attemptsUsed : Nat
  finalLoaded : Bool
  deriving DecidableEq, Repr

/-- The pattern starts the given character list. -/
def charsStartWith : List Char → List Char → Bool
  | [], _ => true
  | _ :: _, [] => false
  | a :: as, b :: bs => a == b && charsStartWith as bs

/-- The pattern occurs somewhere in the character list. -/
def hasSubChars (pat : List Char) : List Char → Bool
  | [] => charsStartWith pat []
  | c :: rest => charsStartWith pat (c :: rest) || hasSubChars pat rest

/-- `String.includes`-style substring test, kept structurally
computable. -/
def containsSubstr (msg pat : String) : Bool :=
  hasSubChars pat.toList msg.toList

/-- Message produced when `player.load()` itself rejects: decode-like
errors (`decode`, `DecodeError`, `Unable to decode`) are rewrapped
with the path, others rethrown as-is. -/
def rewrapLoadError (path msg : String) : String :=
  if containsSubstr msg "decode" || containsSubstr msg "DecodeError" ||
      containsSubstr msg "Unable to decode" then
    "Unable to decode audio file: " ++ path ++
      ". The file may be corrupted, in an unsupported format, or not a valid MP3 file."
  else msg

/-- Shared final checks: duration must be non-zero and non-NaN, else
the load throws; otherwise `player.start()` is issued. -/
def finishFileLoad (path : String) (env : FileLoadEnv) (attempts : Nat) :
    FileLoadResult :=
  if env.duration = 0 ∨ env.durationNaN then
    { started := false
      errorMsg := some ("Audio file " ++ path ++
        " has invalid duration. File may be corrupted or empty.")
      attemptsUsed := attempts
      finalLoaded := true }
  else
    { started := true, errorMsg := none, attemptsUsed := attempts
      finalLoaded := true }

/-- The SoundPlayer (single player) file-load sequence: `load()`, the
poll loop, a second chance after one extra 500 ms wait, then the
duration checks. -/
def runSPFileLoad (path : String) (env : FileLoadEnv) : FileLoadResult :=
  match env.loadThrows with
  | some m =>
    { started := false, errorMsg := some (rewrapLoadError path m)
      attemptsUsed := 0, finalLoaded := false }
  | none =>
    let a := pollBuffer env 0
    if bufferLoaded env a then
      finishFileLoad path env a
    else if bufferLoaded env (a + 5) then
      finishFileLoad path env a
    else
      { started := false
        errorMsg := some ("Buffer did not load successfully for " ++ path ++
          ". File may not exist (404) or is corrupted.")
        attemptsUsed := a, finalLoaded := false }

/-- The SoundBoard (mixer) file-load sequence: `load()`, the poll loop,
an unconditional extra 200 ms wait, then one loaded check and the
duration checks. -/
def runMBFileLoad (path : String) (env : FileLoadEnv) : FileLoadResult :=
  match env.loadThrows with
  | some m =>
    { started := false, errorMsg := some (rewrapLoadError path m)
      attemptsUsed := 0, finalLoaded := false }
  | none =>
    let a := pollBuffer env 0
    if bufferLoaded env (a + 2) then
      finishFileLoad path env a
    else
      { started := false
        errorMsg := some ("Buffer did not load successfully for " ++ path ++
          ". File may not exist (404) or is corrupted.")
        attemptsUsed := a, finalLoaded := false }

theorem pollBufferFuel_le (env : FileLoadEnv) :
    ∀ (fuel a : Nat), pollBufferFuel env fuel a ≤ a + fuel := by
  intro fuel
  induction fuel with
  | zero =>
    intro a
    exact Nat.le_refl a
  | succ f ih =>
    intro a
    unfold pollBufferFuel
    split
    · calc pollBufferFuel env f (a + 1) ≤ (a + 1) + f := ih (a + 1)
        _ = a + (f + 1) := by omega
    · omega

theorem pollBuffer_le (env : FileLoadEnv) (a : Nat) (h : a ≤ 50) :
    pollBuffer env a ≤ 50 := by
  unfold pollBuffer
  calc pollBufferFuel env (50 - a) a ≤ a + (50 - a) := pollBufferFuel_le env _ a
    _ ≤ 50 := by omega

/-! ## SoundPlayer: the single-channel player

State of the `SoundPlayer` component.  `oscRef`/`noiseRef`/`playerRef`
model the `useRef`s (and the mirroring `useState`s, which always hold
the same values).  `timerMode` models which interval callback, if any,
is installed in `timerIntervalRef`. -/

inductive TimerMode where
  | off
  | countingDown
  | countingUp
  deriving DecidableEq, Repr

namespace SoundPlayer

structure PlayerState where
  isPlaying : Bool
  isLoading : Bool
  selectedSound : String
  oscRef : Option Nat
  noiseRef : Option Nat
  playerRef : Option Nat
  volume : Int
  isMuted : Bool
  previousVolume : Int
  timer : Nat
  selectedTimerDuration : Option Nat
  timerMode : TimerMode
  isPlayingRef : Bool
  heap : Heap
  warnings : List String
  deriving DecidableEq, Repr

/-- Environment for one `toggleSound` call. -/
structure PEnv where
  toneStartFails : Bool
  fileEnv : FileLoadEnv
  deriving DecidableEq, Repr

/-- The initial component state (`useState` initialisers). -/
def pinit : PlayerState :=
  { isPlaying := false, isLoading := false
    selectedSound := "528 Hz (Love/Miracle)"
    oscRef := none, noiseRef := none, playerRef := none
    volume := -12, isMuted := false, previousVolume := -12
    timer := 0, selectedTimerDuration := none, timerMode := TimerMode.off
    isPlayingRef := false, heap := Heap.empty, warnings := [] }

/-- The cleanup prologue of `toggleSound` (and of its stop branch):
stop, dispose and null every source ref. -/
def cleanupRefs (p : PlayerState) : PlayerState :=
  { p with
    heap := ((p.heap.dispose p.oscRef).dispose p.noiseRef).dispose p.playerRef
    oscRef := none, noiseRef := none, playerRef := none }

/-- The oscillator branch of `toggleSound`: create, connect, start.
`setIsPlaying(true)` is issued but `isPlayingRef.current` is not
updated in this branch (unlike the noise and file branches). -/
def startFreq (p : PlayerState) : PlayerState :=
  let (oid, h) := p.heap.alloc
  { p with oscRef := some oid, heap := h, isPlaying := true }

/-- The noise branch of `toggleSound`: green and bath colours create a
pink or brown noise plus a local filter (the filter is never stored in
a ref), others a plain noise.  Sets both the playing state and
`isPlayingRef`. -/
def startNoise (color : String) (p : PlayerState) : PlayerState :=
  let (nid, h) := p.heap.alloc
  let h2 := if color = "green" ∨ color = "bath" then (h.alloc).2 else h
  { p with
    noiseRef := some nid, heap := h2
    isPlaying := true, isPlayingRef := true }

/-- The file branch of `toggleSound`: mark loading, create a
`Tone.Player`, store it in the ref, run the load sequence; on success
start it, on failure dispose and null the ref, record a console
warning naming the path, and set the state flags back. -/
def startFile (path : String) (env : FileLoadEnv) (p : PlayerState) :
    PlayerState :=
  let p1 := { p with isLoading := true }
  let (pid, h) := p1.heap.alloc
  let p2 := { p1 with playerRef := some pid, heap := h }
  let r := runSPFileLoad path env
  if r.started then
    { p2 with isPlaying := true, isPlayingRef := true, isLoading := false }
  else
    { p2 with
      isPlaying := false, isPlayingRef := false, isLoading := false
      heap := p2.heap.dispose p2.playerRef, playerRef := none
      warnings := ("Could not load audio file: " ++ path ++ ". Error: " ++
        (r.errorMsg.getD "Unknown error")) :: p2.warnings }

/-- Dispatch on the selected sound definition. -/
def startSound (env : PEnv) (sd : SoundType) (p : PlayerState) : PlayerState :=
  match sd with
  | SoundType.freq _ => startFreq p
  | SoundType.noise c => startNoise c p
  | SoundType.file path => startFile path env.fileEnv p

/-- `// Start timer only if sound is playing`: install a countdown
interval when a preset duration is selected, else a count-up
interval. -/
def startTimer (p : PlayerState) : PlayerState :=
  if p.isPlayingRef then
    match p.selectedTimerDuration with
    | some d => { p with timer := d, timerMode := TimerMode.countingDown }
    | none => { p with timer := 0, timerMode := TimerMode.countingUp }
  else p

/-- `toggleSound`.  Both branches end with the unconditional
`setIsPlaying(!isPlaying)` on the value of `isPlaying` captured at
entry, except for the early returns (Tone.start failure, unknown sound
name). -/
def toggleSound (env : PEnv) (p : PlayerState) : PlayerState :=
  if p.isPlaying = false then
    let p1 := cleanupRefs p
    if env.toneStartFails then p1
    else
      match findSound p1.selectedSound with
      | none => p1
      | some sd =>
        let p2 := startSound env sd p1
        let p3 := startTimer p2
        { p3 with isPlaying := true }
  else
    let p1 := cleanupRefs { p with isPlayingRef := false }
    { p1 with timerMode := TimerMode.off, isPlaying := false }

/-- One firing of the interval installed by `startTimer`.  The
countdown callback stops and disposes the active source when the
previous value is ≤ 1 and leaves the timer at 0. -/
def tick (p : PlayerState) : PlayerState :=
  match p.timerMode with
  | TimerMode.off => p
  | TimerMode.countingUp => { p with timer := p.timer + 1 }
  | TimerMode.countingDown =>
    if p.timer ≤ 1 then
      { (cleanupRefs p) with
        timerMode := TimerMode.off, isPlaying := false
        isPlayingRef := false, timer := 0 }
    else
      { p with timer := p.timer - 1 }

/-- `handleSoundChange`: when playing, stop and dispose the current
source, clear the interval and reset the displayed timer to the
selected preset (`selectedTimerDuration || 0`); always select the new
sound. -/
def handleSoundChange (value : String) (p : PlayerState) : PlayerState :=
  if p.isPlaying then
    { (cleanupRefs p) with
      isPlaying := false, isPlayingRef := false
      timerMode := TimerMode.off
      timer := p.selectedTimerDuration.getD 0
      selectedSound := value }
  else
    { p with selectedSound := value }

/-- `handleTimerChange`: record the selected duration; when not
playing also reset the displayed value (`duration || 0`). -/
def handleTimerChange (d : Option Nat) (p : PlayerState) : PlayerState :=
  { p with
    selectedTimerDuration := d
    timer := if p.isPlaying then p.timer else d.getD 0 }

/-- `handleVolumeChange`: set the volume; an explicit change while
muted un-mutes. -/
def handleVolumeChange (v : Int) (p : PlayerState) : PlayerState :=
  if p.isMuted then { p with volume := v, isMuted := false }
  else { p with volume := v }

/-- `toggleMute`: unmuting restores the remembered volume, muting
remembers the current one. -/
def toggleMute (p : PlayerState) : PlayerState :=
  if p.isMuted then
    { p with volume := p.previousVolume, isMuted := false }
  else
    { p with previousVolume := p.volume, isMuted := true }

/-- The `useEffect([volume, isMuted])` hook:
`volumeControl.volume.value = isMuted ? -Infinity : volume`.
`none` models −∞. -/
def effectiveVolume (p : PlayerState) : Option Int :=
  if p.isMuted then none else some p.volume

/-- User and timer events reaching the single player. -/
inductive PAction where
  | toggle (env : PEnv)
  | soundChange (name : String)
  | timerChange (d : Option Nat)
  | volChange (v : Int)
  | muteToggle
  | tick
  deriving DecidableEq, Repr

def pstep (a : PAction) (p : PlayerState) : PlayerState :=
  match a with
  | PAction.toggle env => toggleSound env p
  | PAction.soundChange name => handleSoundChange name p
  | PAction.timerChange d => handleTimerChange d p
  | PAction.volChange v => handleVolumeChange v p
  | PAction.muteToggle => toggleMute p
  | PAction.tick => tick p

def prun (acts : List PAction) (p : PlayerState) : PlayerState :=
  acts.foldl (fun st a => pstep a st) p

/-- Channel invariant for the single player: at most one of the three
source refs is non-null. -/
def atMostOneRef (p : PlayerState) : Prop :=
  (if p.oscRef.isSome then 1 else 0) + (if p.noiseRef.isSome then 1 else 0) +
    (if p.playerRef.isSome then 1 else 0) ≤ 1

theorem cleanupRefs_refs (p : PlayerState) :
    (cleanupRefs p).oscRef = none ∧ (cleanupRefs p).noiseRef = none ∧
      (cleanupRefs p).playerRef = none := by
  simp [cleanupRefs]

theorem atMostOneRef_cleanup (p : PlayerState) : atMostOneRef (cleanupRefs p) := by
  simp [atMostOneRef, cleanupRefs]

theorem atMostOneRef_of_refs {p q : PlayerState}
    (ho : q.oscRef = p.oscRef) (hn : q.noiseRef = p.noiseRef)
    (hp2 : q.playerRef = p.playerRef) (h : atMostOneRef p) : atMostOneRef q := by
  unfold atMostOneRef at h ⊢
  rw [ho, hn, hp2]
  exact h

theorem startTimer_refs (p : PlayerState) :
    (startTimer p).oscRef = p.oscRef ∧ (startTimer p).noiseRef = p.noiseRef ∧
      (startTimer p).playerRef = p.playerRef := by
  unfold startTimer
  split
  · cases p.selectedTimerDuration <;> simp
  · simp

theorem atMostOneRef_startSound (env : PEnv) (sd : SoundType) (p : PlayerState)
    (h1 : p.oscRef = none) (h2 : p.noiseRef = none) (h3 : p.playerRef = none) :
    atMostOneRef (startSound env sd p) := by
  cases sd with
  | freq hz => simp [startSound, startFreq, atMostOneRef, Heap.alloc, h2, h3]
  | noise c => simp [startSound, startNoise, atMostOneRef, Heap.alloc, h1, h3]
  | file path =>
    simp only [startSound, startFile, Heap.alloc]
    split <;> simp [atMostOneRef, h1, h2]

theorem atMostOneRef_toggleSound (env : PEnv) (p : PlayerState) :
    atMostOneRef (toggleSound env p) := by
  unfold toggleSound
  by_cases hp : p.isPlaying = false
  · rw [if_pos hp]
    by_cases ht : env.toneStartFails = true
    · rw [if_pos ht]
      exact atMostOneRef_cleanup p
    · rw [if_neg ht]
      cases hfs : findSound (cleanupRefs p).selectedSound with
      | none =>
        exact atMostOneRef_cleanup p
      | some sd =>
        have hbase := atMostOneRef_startSound env sd (cleanupRefs p)
          (cleanupRefs_refs p).1 (cleanupRefs_refs p).2.1 (cleanupRefs_refs p).2.2
        have htr := startTimer_refs (startSound env sd (cleanupRefs p))
        exact atMostOneRef_of_refs htr.1 htr.2.1 htr.2.2 hbase
  · rw [if_neg hp]
    simp [atMostOneRef, cleanupRefs]

theorem atMostOneRef_pstep (a : PAction) (p : PlayerState)
    (h : atMostOneRef p) : atMostOneRef (pstep a p) := by
  cases a with
  | toggle env => exact atMostOneRef_toggleSound env p
  | soundChange name =>
    show atMostOneRef (handleSoundChange name p)
    unfold handleSoundChange
    split
    · simp [atMostOneRef, cleanupRefs]
    · exact atMostOneRef_of_refs rfl rfl rfl h
  | timerChange d =>
    show atMostOneRef (handleTimerChange d p)
    exact atMostOneRef_of_refs rfl rfl rfl h
  | volChange v =>
    show atMostOneRef (handleVolumeChange v p)
    unfold handleVolumeChange
    split
    · exact atMostOneRef_of_refs rfl rfl rfl h
    · exact atMostOneRef_of_refs rfl rfl rfl h
  | muteToggle =>
    show atMostOneRef (toggleMute p)
    unfold toggleMute
    split
    · exact atMostOneRef_of_refs rfl rfl rfl h
    · exact atMostOneRef_of_refs rfl rfl rfl h
  | tick =>
    show atMostOneRef (tick p)
    cases htm : p.timerMode with
    | off =>
      simp only [tick, htm]
      exact h
    | countingUp =>
      simp only [tick, htm]
      exact atMostOneRef_of_refs rfl rfl rfl h
    | countingDown =>
      by_cases htle : p.timer ≤ 1
      · simp [tick, htm, htle, atMostOneRef, cleanupRefs]
      · simp only [tick, htm, if_neg htle]
        exact atMostOneRef_of_refs rfl rfl rfl h

theorem atMostOneRef_prun (acts : List PAction) (p : PlayerState)
    (h : atMostOneRef p) : atMostOneRef (prun acts p) := by
  induction acts generalizing p with
  | nil => exact h
  | cons a rest ih => exact ih (pstep a p) (atMostOneRef_pstep a p h)

end SoundPlayer

/-! ## SoundBoard: the 4-slot mixer

`SoundSlot` state plus the per-slot `Tone.Volume` controls
(`volumeControlsRef`).  `GainValue.neginf` models a gain of −∞ dB. -/

namespace SoundBoard

inductive GainValue where
  | neginf
  | db (v : Int)
  deriving DecidableEq, Repr

structure Slot where
  id : Nat
  soundName : Option String
  soundDef : Option SoundType
  isPlaying : Bool
  isLoading : Bool
  volume : Int
  isMuted : Bool
  oscillator : Option Nat
  noise : Option Nat
  player : Option Nat
  filter : Option Nat
  deriving DecidableEq, Repr

structure MixerState where
  slots : List Slot
  controls : List GainValue
  heap : Heap
  alerts : List String
  deriving DecidableEq, Repr

def emptySlot (i : Nat) : Slot :=
  { id := i, soundName := none, soundDef := none, isPlaying := false
    isLoading := false, volume := -12, isMuted := false
    oscillator := none, noise := none, player := none, filter := none }

/-- The initial `slots` state and the volume controls created in the
mount effect. -/
def minit : MixerState :=
  { slots := [emptySlot 1, emptySlot 2, emptySlot 3, emptySlot 4]
    controls := [GainValue.db (-12), GainValue.db (-12), GainValue.db (-12),
      GainValue.db (-12)]
    heap := Heap.empty, alerts := [] }

/-- `prev.map(s => s.id === slotId ? f(s) : s)`: every state write in
SoundBoard has this shape. -/
def updSlot (i : Nat) (f : Slot → Slot) (l : List Slot) : List Slot :=
  l.map fun s => if s.id = i then f s else s

/-- Stop and dispose all four handles of a slot
(`slot.oscillator?.stop().dispose()` and so on). -/
def dispose4 (h : Heap) (s : Slot) : Heap :=
  (((h.dispose s.oscillator).dispose s.noise).dispose s.player).dispose s.filter

/-- The synchronous prologue of `loadSound`: stop and dispose any
existing handles of the slot, then mark it loading with the new sound
selected.  The handle fields themselves are not cleared by this
update. -/
def loadPhase1 (i : Nat) (name : String) (d : SoundType) (st : MixerState) :
    MixerState :=
  match st.slots[i - 1]? with
  | none => st
  | some slot =>
    { st with
      heap := dispose4 st.heap slot
      slots := updSlot i (fun s =>
        { s with
          isLoading := true, soundName := some name
          soundDef := some d, isPlaying := false }) st.slots }

/-- File case, before the buffer load: create the `Tone.Player`,
connect it, and store it in the slot.  Returns the new handle. -/
def loadFileBegin (i : Nat) (st : MixerState) : MixerState × Nat :=
  let (pid, h) := st.heap.alloc
  ({ st with
     heap := h
     slots := updSlot i (fun s => { s with player := some pid }) st.slots },
   pid)

/-- File case, after the awaited buffer load: on success re-store the
player, clear loading, mark playing and start it; on failure clear the
slot back to empty (without disposing the failed player) and alert
with the sound name, file path and error message. -/
def loadFileResolve (i : Nat) (name : String) (path : String) (pid : Nat)
    (env : FileLoadEnv) (st : MixerState) : MixerState :=
  let r := runMBFileLoad path env
  if r.started then
    { st with
      slots := updSlot i (fun s =>
        { s with
          player := some pid, isLoading := false, isPlaying := true })
        st.slots }
  else
    { st with
      slots := updSlot i (fun s =>
        { s with
          isLoading := false, isPlaying := false
          soundName := none, soundDef := none, player := none }) st.slots
      alerts := ("Could not load: " ++ name ++ ". File path: " ++ path ++
        ". Error: " ++ (r.errorMsg.getD "Unknown error")) :: st.alerts }

/-- The per-kind body of `loadSound` after the prologue. -/
def loadStart (i : Nat) (name : String) (d : SoundType) (env : FileLoadEnv)
    (st : MixerState) : MixerState :=
  match d with
  | SoundType.freq _ =>
    let (oid, h) := st.heap.alloc
    { st with
      heap := h
      slots := updSlot i (fun s =>
        { s with
          oscillator := some oid, isLoading := false
          isPlaying := true }) st.slots }
  | SoundType.noise c =>
    let (nid, h) := st.heap.alloc
    let fh : Heap × Option Nat := if c = "green" ∨ c = "bath" then
        ((h.alloc).2, some (h.alloc).1)
      else (h, none)
    { st with
      heap := fh.1
      slots := updSlot i (fun s =>
        { s with
          noise := some nid, filter := fh.2
          isLoading := false, isPlaying := true }) st.slots }
  | SoundType.file path =>
    let bg := loadFileBegin i st
    loadFileResolve i name path bg.2 env bg.1

/-- `loadSound(slotId, soundName, soundDef)`. -/
def loadSound (i : Nat) (name : String) (d : SoundType) (env : FileLoadEnv)
    (st : MixerState) : MixerState :=
  match st.controls[i - 1]? with
  | none => st
  | some _ => loadStart i name d env (loadPhase1 i name d st)

/-- `toggleSlot(slotId)`: a no-op when no sound is selected; otherwise
stop (pause) or restart the slot's handles and flip the flag. -/
def toggleSlot (i : Nat) (st : MixerState) : MixerState :=
  match st.slots[i - 1]? with
  | none => st
  | some slot =>
    if slot.soundDef = none then st
    else if slot.isPlaying then
      { st with
        slots := updSlot i (fun s => { s with isPlaying := false }) st.slots }
    else
      { st with
        slots := updSlot i (fun s => { s with isPlaying := true }) st.slots }

/-- `removeSound(slotId)`: stop and dispose all handles and clear the
slot back to empty. -/
def removeSound (i : Nat) (st : MixerState) : MixerState :=
  match st.slots[i - 1]? with
  | none => st
  | some slot =>
    { st with
      heap := dispose4 st.heap slot
      slots := updSlot i (fun s =>
        { s with
          soundName := none, soundDef := none, isPlaying := false
          oscillator := none, noise := none, player := none, filter := none })
        st.slots }

/-- `updateVolume(slotId, newVolume)`: set the gain node (when
present) and the slot's volume, clearing mute. -/
def updateVolume (i : Nat) (v : Int) (st : MixerState) : MixerState :=
  { st with
    controls := st.controls.set (i - 1) (GainValue.db v)
    slots := updSlot i (fun s => { s with volume := v, isMuted := false })
      st.slots }

/-- `toggleMute(slotId)`: muting sets the gain to −∞, unmuting
restores the slot's stored volume; the flag flips. -/
def toggleMute (i : Nat) (st : MixerState) : MixerState :=
  match st.slots[i - 1]? with
  | none => st
  | some slot =>
    { st with
      controls := st.controls.set (i - 1)
        (if slot.isMuted then GainValue.db slot.volume else GainValue.neginf)
      slots := updSlot i (fun s => { s with isMuted := !s.isMuted }) st.slots }

/-- The per-slot operations of the mixer. -/
inductive MAction where
  | load (slotId : Nat) (name : String) (d : SoundType) (env : FileLoadEnv)
  | toggle (slotId : Nat)
  | remove (slotId : Nat)
  | setVol (slotId : Nat) (v : Int)
  | mute (slotId : Nat)
  deriving DecidableEq, Repr

def MAction.target : MAction → Nat
  | MAction.load i _ _ _ => i
  | MAction.toggle i => i
  | MAction.remove i => i
  | MAction.setVol i _ => i
  | MAction.mute i => i

def mstep (a : MAction) (st : MixerState) : MixerState :=
  match a with
  | MAction.load i name d env => loadSound i name d env st
  | MAction.toggle i => toggleSlot i st
  | MAction.remove i => removeSound i st
  | MAction.setVol i v => updateVolume i v st
  | MAction.mute i => toggleMute i st

def mrun (acts : List MAction) (st : MixerState) : MixerState :=
  acts.foldl (fun s a => mstep a s) st

/-! ### Handle accounting for mixer slots -/

/-- An optional handle is within the allocated range. -/
def optBelow (h : Heap) (o : Option Nat) : Bool :=
  match o with
  | none => true
  | some id => decide (id < h.next)

/-- All four handle fields of a slot are within the allocated range. -/
def idsBelow (h : Heap) (s : Slot) : Bool :=
  optBelow h s.oscillator && optBelow h s.noise && optBelow h s.player &&
    optBelow h s.filter

/-- 1 when the optional handle refers to a live (undisposed) node. -/
def liveSrc (h : Heap) (o : Option Nat) : Nat :=
  match o with
  | none => 0
  | some id => if h.alive id then 1 else 0

/-- Number of live audio-source handles attached to a slot (the filter
is not a source). -/
def liveCount (h : Heap) (s : Slot) : Nat :=
  liveSrc h s.oscillator + liveSrc h s.noise + liveSrc h s.player

def slotOK (h : Heap) (s : Slot) : Bool :=
  idsBelow h s && decide (liveCount h s ≤ 1)

/-- Every disposed handle was allocated. -/
def heapOK (h : Heap) : Bool :=
  h.dead.all (fun id => decide (id < h.next))

/-- Slot ids are positional: the slot at index `k` has id `n + k`. -/
def posIdsFrom : Nat → List Slot → Bool
  | _, [] => true
  | n, s :: t => decide (s.id = n) && posIdsFrom (n + 1) t

def slotsOK (h : Heap) (l : List Slot) : Bool :=
  l.all (fun s => slotOK h s)

/-- The mixer state invariant. -/
def MInv (st : MixerState) : Prop :=
  heapOK st.heap = true ∧ posIdsFrom 1 st.slots = true ∧
    slotsOK st.heap st.slots = true

theorem liveSrc_le_one (h : Heap) (o : Option Nat) : liveSrc h o ≤ 1 := by
  cases o with
  | none => exact Nat.zero_le 1
  | some id =>
    simp only [liveSrc]
    split
    · exact Nat.le_refl 1
    · exact Nat.zero_le 1

theorem liveSrc_mono {h h2 : Heap} (hle : heapLE h h2) {o : Option Nat}
    (hb : optBelow h o = true) : liveSrc h2 o ≤ liveSrc h o := by
  cases o with
  | none => exact Nat.le_refl 0
  | some id =>
    simp only [optBelow, decide_eq_true_eq] at hb
    simp only [liveSrc]
    by_cases ha : h2.alive id = true
    · rw [if_pos ha, if_pos (alive_of_alive_heapLE hle hb ha)]
    · rw [if_neg ha]
      exact Nat.zero_le _

theorem idsBelow_parts {h : Heap} {s : Slot} (hb : idsBelow h s = true) :
    optBelow h s.oscillator = true ∧ optBelow h s.noise = true ∧
      optBelow h s.player = true ∧ optBelow h s.filter = true := by
  simp only [idsBelow, Bool.and_eq_true] at hb
  exact ⟨hb.1.1.1, hb.1.1.2, hb.1.2, hb.2⟩

theorem optBelow_mono {h h2 : Heap} {o : Option Nat} (hn : h.next ≤ h2.next)
    (hb : optBelow h o = true) : optBelow h2 o = true := by
  cases o with
  | none => rfl
  | some id =>
    simp only [optBelow, decide_eq_true_eq] at hb ⊢
    omega

theorem liveCount_mono {h h2 : Heap} {s : Slot} (hle : heapLE h h2)
    (hb : idsBelow h s = true) : liveCount h2 s ≤ liveCount h s := by
  obtain ⟨b1, b2, b3, -⟩ := idsBelow_parts hb
  unfold liveCount
  have := liveSrc_mono hle b1
  have := liveSrc_mono hle b2
  have := liveSrc_mono hle b3
  omega

theorem slotOK_parts {h : Heap} {s : Slot} (hok : slotOK h s = true) :
    idsBelow h s = true ∧ liveCount h s ≤ 1 := by
  simp only [slotOK, Bool.and_eq_true, decide_eq_true_eq] at hok
  exact hok

theorem slotOK_intro {h : Heap} {s : Slot} (hb : idsBelow h s = true)
    (hc : liveCount h s ≤ 1) : slotOK h s = true := by
  simp only [slotOK, Bool.and_eq_true, decide_eq_true_eq]
  exact ⟨hb, hc⟩

theorem slotOK_mono {h h2 : Heap} {s : Slot} (hle : heapLE h h2)
    (hok : slotOK h s = true) : slotOK h2 s = true := by
  obtain ⟨hb, hc⟩ := slotOK_parts hok
  obtain ⟨b1, b2, b3, b4⟩ := idsBelow_parts hb
  refine slotOK_intro ?_ (Nat.le_trans (liveCount_mono hle hb) hc)
  simp only [idsBelow, Bool.and_eq_true]
  exact ⟨⟨⟨optBelow_mono hle.1 b1, optBelow_mono hle.1 b2⟩,
    optBelow_mono hle.1 b3⟩, optBelow_mono hle.1 b4⟩

/-- `slotOK` only looks at the four handle fields. -/
theorem slotOK_fields {h : Heap} {s t : Slot} (ho : t.oscillator = s.oscillator)
    (hn : t.noise = s.noise) (hp : t.player = s.player)
    (hf : t.filter = s.filter) : slotOK h t = slotOK h s := by
  unfold slotOK idsBelow liveCount
  rw [ho, hn, hp, hf]

theorem liveCount_fields {h : Heap} {s t : Slot}
    (ho : t.oscillator = s.oscillator) (hn : t.noise = s.noise)
    (hp : t.player = s.player) : liveCount h t = liveCount h s := by
  unfold liveCount
  rw [ho, hn, hp]

theorem dispose_next (h : Heap) (o : Option Nat) : (h.dispose o).next = h.next := by
  cases o <;> rfl

theorem dispose4_next (h : Heap) (s : Slot) : (dispose4 h s).next = h.next := by
  unfold dispose4
  rw [dispose_next, dispose_next, dispose_next, dispose_next]

theorem heapLE_dispose4 (h : Heap) (s : Slot) : heapLE h (dispose4 h s) :=
  heapLE_trans (heapLE_dispose h s.oscillator)
    (heapLE_trans (heapLE_dispose _ s.noise)
      (heapLE_trans (heapLE_dispose _ s.player) (heapLE_dispose _ s.filter)))

theorem heapOK_dispose {h : Heap} {o : Option Nat} (hok : heapOK h = true)
    (hb : optBelow h o = true) : heapOK (h.dispose o) = true := by
  cases o with
  | none => exact hok
  | some id =>
    simp only [optBelow, decide_eq_true_eq] at hb
    simp only [heapOK, Heap.dispose, List.all_eq_true, decide_eq_true_eq,
      List.mem_cons] at hok ⊢
    intro j hj
    cases hj with
    | inl he => omega
    | inr hm => exact hok j hm

theorem heapOK_dispose4 {h : Heap} {s : Slot} (hok : heapOK h = true)
    (hb : idsBelow h s = true) : heapOK (dispose4 h s) = true := by
  obtain ⟨b1, b2, b3, b4⟩ := idsBelow_parts hb
  unfold dispose4
  apply heapOK_dispose
  · apply heapOK_dispose
    · apply heapOK_dispose
      · exact heapOK_dispose hok b1
      · cases hno : s.noise with
        | none => rfl
        | some id =>
          simp only [optBelow, hno, decide_eq_true_eq, dispose_next] at b2 ⊢
          exact b2
    · cases hpl : s.player with
      | none => rfl
      | some id =>
        simp only [optBelow, hpl, decide_eq_true_eq, dispose_next] at b3 ⊢
        exact b3
  · cases hfi : s.filter with
    | none => rfl
    | some id =>
      simp only [optBelow, hfi, decide_eq_true_eq, dispose_next] at b4 ⊢
      exact b4

theorem heapOK_alloc {h : Heap} (hok : heapOK h = true) :
    heapOK (h.alloc).2 = true := by
  simp only [heapOK, Heap.alloc, List.all_eq_true, decide_eq_true_eq] at hok ⊢
  intro id hm
  exact Nat.lt_succ_of_lt (hok id hm)

theorem alive_alloc_fresh {h : Heap} (hok : heapOK h = true) :
    (h.alloc).2.alive (h.alloc).1 = true := by
  simp only [heapOK, List.all_eq_true, decide_eq_true_eq] at hok
  simp only [Heap.alive, Heap.alloc, Bool.and_eq_true, Bool.not_eq_true',
    decide_eq_true_eq, decide_eq_false_iff_not]
  exact ⟨Nat.lt_succ_self _, fun hm => Nat.lt_irrefl _ (hok _ hm)⟩

theorem mem_dead_dispose (h : Heap) (o : Option Nat) {j : Nat}
    (hm : j ∈ h.dead) : j ∈ (h.dispose o).dead :=
  (heapLE_dispose h o).2 j hm

theorem liveCount_dispose4_self (h : Heap) (s : Slot) :
    liveCount (dispose4 h s) s = 0 := by
  have hosc : liveSrc (dispose4 h s) s.oscillator = 0 := by
    cases ho : s.oscillator with
    | none => rfl
    | some id =>
      have h1 : id ∈ (h.dispose s.oscillator).dead := by
        rw [ho]
        exact List.mem_cons_self _ _
      have h4 : id ∈ (dispose4 h s).dead :=
        mem_dead_dispose _ s.filter
          (mem_dead_dispose _ s.player (mem_dead_dispose _ s.noise h1))
      simp [liveSrc, alive_dead h4]
  have hnoi : liveSrc (dispose4 h s) s.noise = 0 := by
    cases hn : s.noise with
    | none => rfl
    | some id =>
      have h1 : id ∈ ((h.dispose s.oscillator).dispose s.noise).dead := by
        rw [hn]
        exact List.mem_cons_self _ _
      have h4 : id ∈ (dispose4 h s).dead :=
        mem_dead_dispose _ s.filter (mem_dead_dispose _ s.player h1)
      simp [liveSrc, alive_dead h4]
  have hpla : liveSrc (dispose4 h s) s.player = 0 := by
    cases hp : s.player with
    | none => rfl
    | some id =>
      have h1 : id ∈ (((h.dispose s.oscillator).dispose s.noise).dispose
          s.player).dead := by
        rw [hp]
        exact List.mem_cons_self _ _
      have h4 : id ∈ (dispose4 h s).dead := mem_dead_dispose _ s.filter h1
      simp [liveSrc, alive_dead h4]
  unfold liveCount
  omega

/-! ### updSlot and positional ids -/

theorem getElem?_updSlot (i : Nat) (f : Slot → Slot) (l : List Slot) (k : Nat) :
    (updSlot i f l)[k]? = (l[k]?).map (fun s => if s.id = i then f s else s) := by
  simp [updSlot]

theorem posIdsFrom_updSlot {f : Slot → Slot} (hf : ∀ s, (f s).id = s.id)
    (i : Nat) : ∀ (n : Nat) (l : List Slot),
    posIdsFrom n (updSlot i f l) = posIdsFrom n l := by
  intro n l
  induction l generalizing n with
  | nil => rfl
  | cons s t ih =>
    simp only [updSlot, List.map_cons, posIdsFrom] at *
    by_cases hs : s.id = i
    · simp [hs, hf, ih]
    · simp [hs, ih]

theorem posIdsFrom_getElem {l : List Slot} :
    ∀ {n k : Nat} {s : Slot}, posIdsFrom n l = true → l[k]? = some s →
      s.id = n + k := by
  induction l with
  | nil =>
    intro n k s _ hk
    simp at hk
  | cons a t ih =>
    intro n k s hp hk
    simp only [posIdsFrom, Bool.and_eq_true, decide_eq_true_eq] at hp
    cases k with
    | zero =>
      simp only [List.getElem?_cons_zero, Option.some.injEq] at hk
      subst hk
      simpa using hp.1
    | succ k2 =>
      have hk2 : t[k2]? = some s := by simpa using hk
      have := ih hp.2 hk2
      omega

/-- Under positional ids, a member of the list with id `i` is the
element stored at index `i - 1`. -/
theorem mem_id_unique {l : List Slot} (hpos : posIdsFrom 1 l = true)
    {s slot : Slot} {i : Nat} (hmem : s ∈ l) (hid : s.id = i)
    (hslot : l[i - 1]? = some slot) : s = slot := by
  obtain ⟨k, hk⟩ := List.get_of_mem hmem
  have hk2 : l[k.1]? = some s := by
    rw [List.getElem?_eq_getElem k.2]
    simpa using congrArg some hk
  have h1 : s.id = 1 + k.1 := posIdsFrom_getElem hpos hk2
  have h2 : slot.id = 1 + (i - 1) := posIdsFrom_getElem hpos hslot
  have hki : k.1 = i - 1 := by omega
  rw [hki] at hk2
  rw [hslot] at hk2
  exact ((Option.some.injEq _ _).mp hk2).symm

theorem slotsOK_getElem {h : Heap} {l : List Slot} {k : Nat} {s : Slot}
    (hok : slotsOK h l = true) (hk : l[k]? = some s) : slotOK h s = true := by
  simp only [slotsOK, List.all_eq_true] at hok
  exact hok s (List.getElem?_mem hk)

theorem slotsOK_updSlot {h h2 : Heap} {l : List Slot} {i : Nat}
    {f : Slot → Slot} (hle : heapLE h h2) (hok : slotsOK h l = true)
    (hf : ∀ s, s ∈ l → s.id = i → slotOK h s = true → slotOK h2 (f s) = true) :
    slotsOK h2 (updSlot i f l) = true := by
  simp only [slotsOK, updSlot, List.all_eq_true] at hok ⊢
  intro t ht
  rcases List.mem_map.mp ht with ⟨s, hs, rfl⟩
  by_cases hsi : s.id = i
  · rw [if_pos hsi]
    exact hf s hs hsi (hok s hs)
  · rw [if_neg hsi]
    exact slotOK_mono hle (hok s hs)

theorem getElem_of_mem_id {l : List Slot} (hpos : posIdsFrom 1 l = true)
    {s : Slot} {i : Nat} (hmem : s ∈ l) (hid : s.id = i) :
    l[i - 1]? = some s := by
  obtain ⟨k, hk⟩ := List.get_of_mem hmem
  have hk2 : l[k.1]? = some s := by
    rw [List.getElem?_eq_getElem k.2]
    simpa using congrArg some hk
  have h1 : s.id = 1 + k.1 := posIdsFrom_getElem hpos hk2
  have hki : k.1 = i - 1 := by omega
  rw [hki] at hk2
  exact hk2

theorem liveCount_parts {h : Heap} {s : Slot} (hz : liveCount h s = 0) :
    liveSrc h s.oscillator = 0 ∧ liveSrc h s.noise = 0 ∧
      liveSrc h s.player = 0 := by
  unfold liveCount at hz
  omega

theorem liveSrc_zero_mono {h h2 : Heap} {o : Option Nat} (hle : heapLE h h2)
    (hb : optBelow h o = true) (hz : liveSrc h o = 0) : liveSrc h2 o = 0 :=
  Nat.le_zero.mp (Nat.le_trans (liveSrc_mono hle hb) (Nat.le_of_eq hz))

theorem optBelow_next_eq {h h2 : Heap} (hn : h.next = h2.next)
    (o : Option Nat) : optBelow h o = optBelow h2 o := by
  cases o with
  | none => rfl
  | some id => simp [optBelow, hn]

theorem idsBelow_next_eq {h h2 : Heap} (hn : h.next = h2.next) (s : Slot) :
    idsBelow h s = idsBelow h2 s := by
  unfold idsBelow
  rw [optBelow_next_eq hn, optBelow_next_eq hn, optBelow_next_eq hn,
    optBelow_next_eq hn]

/-- Building block: all SoundBoard operations write state of this
shape, so the invariant follows from a heap-evolution argument plus a
target-slot argument. -/
theorem MInv_mk {st : MixerState} {h2 : Heap} {i : Nat} {f : Slot → Slot}
    {c : List GainValue} {al : List String}
    (hinv : MInv st) (hhok : heapOK h2 = true) (hle : heapLE st.heap h2)
    (hid : ∀ s, (f s).id = s.id)
    (hf : ∀ s, s ∈ st.slots → s.id = i → slotOK st.heap s = true →
      slotOK h2 (f s) = true) :
    MInv { slots := updSlot i f st.slots, controls := c, heap := h2
           alerts := al } := by
  obtain ⟨-, hpos, hok⟩ := hinv
  refine ⟨hhok, ?_, slotsOK_updSlot hle hok hf⟩
  rw [posIdsFrom_updSlot hid i 1 st.slots]
  exact hpos

theorem MInv_toggleSlot (i : Nat) (st : MixerState) (hinv : MInv st) :
    MInv (toggleSlot i st) := by
  unfold toggleSlot
  cases hslot : st.slots[i - 1]? with
  | none => exact hinv
  | some slot =>
    dsimp only
    by_cases hsd : slot.soundDef = none
    · rw [if_pos hsd]
      exact hinv
    · rw [if_neg hsd]
      by_cases hpl : slot.isPlaying = true
      · rw [if_pos hpl]
        refine MInv_mk hinv hinv.1 (heapLE_refl _) (fun s => rfl) ?_
        intro s _ _ hok
        rw [slotOK_fields rfl rfl rfl rfl]
        exact hok
      · rw [if_neg hpl]
        refine MInv_mk hinv hinv.1 (heapLE_refl _) (fun s => rfl) ?_
        intro s _ _ hok
        rw [slotOK_fields rfl rfl rfl rfl]
        exact hok

theorem MInv_removeSound (i : Nat) (st : MixerState) (hinv : MInv st) :
    MInv (removeSound i st) := by
  unfold removeSound
  cases hslot : st.slots[i - 1]? with
  | none => exact hinv
  | some slot =>
    have hsOK := slotsOK_getElem hinv.2.2 hslot
    refine MInv_mk hinv
      (heapOK_dispose4 hinv.1 (slotOK_parts hsOK).1)
      (heapLE_dispose4 _ _) (fun s => rfl) ?_
    intro s _ _ _
    refine slotOK_intro ?_ ?_
    · simp [idsBelow, optBelow]
    · simp [liveCount, liveSrc]

theorem MInv_updateVolume (i : Nat) (v : Int) (st : MixerState)
    (hinv : MInv st) : MInv (updateVolume i v st) := by
  unfold updateVolume
  refine MInv_mk hinv hinv.1 (heapLE_refl _) (fun s => rfl) ?_
  intro s _ _ hok
  rw [slotOK_fields rfl rfl rfl rfl]
  exact hok

theorem MInv_toggleMute (i : Nat) (st : MixerState) (hinv : MInv st) :
    MInv (toggleMute i st) := by
  unfold toggleMute
  cases hslot : st.slots[i - 1]? with
  | none => exact hinv
  | some slot =>
    refine MInv_mk hinv hinv.1 (heapLE_refl _) (fun s => rfl) ?_
    intro s _ _ hok
    rw [slotOK_fields rfl rfl rfl rfl]
    exact hok

theorem MInv_loadPhase1 (i : Nat) (name : String) (d : SoundType)
    (st : MixerState) (hinv : MInv st) :
    MInv (loadPhase1 i name d st) ∧
      ∀ s, s ∈ (loadPhase1 i name d st).slots → s.id = i →
        liveCount (loadPhase1 i name d st).heap s = 0 := by
  unfold loadPhase1
  cases hslot : st.slots[i - 1]? with
  | none =>
    refine ⟨hinv, ?_⟩
    intro s hmem hid
    have hcontra := getElem_of_mem_id hinv.2.1 hmem hid
    rw [hslot] at hcontra
    exact absurd hcontra (by simp)
  | some slot =>
    dsimp only
    have hsOK := slotsOK_getElem hinv.2.2 hslot
    constructor
    · refine MInv_mk hinv (heapOK_dispose4 hinv.1 (slotOK_parts hsOK).1)
        (heapLE_dispose4 _ _) (fun s => rfl) ?_
      intro s hmem hid _
      have hseq : s = slot := mem_id_unique hinv.2.1 hmem hid hslot
      subst hseq
      show slotOK (dispose4 st.heap s) s = true
      refine slotOK_intro ?_ ?_
      · have hb := (slotOK_parts hsOK).1
        rwa [idsBelow_next_eq (dispose4_next st.heap s).symm] at hb
      · rw [liveCount_dispose4_self]
        exact Nat.zero_le 1
    · intro s hmem hid
      rcases List.mem_map.mp hmem with ⟨t, ht, rfl⟩
      by_cases hti : t.id = i
      · have hteq : t = slot := mem_id_unique hinv.2.1 ht hti hslot
        subst hteq
        rw [if_pos hti]
        show liveCount (dispose4 st.heap t) t = 0
        exact liveCount_dispose4_self st.heap t
      · rw [if_neg hti] at hid
        exact absurd hid hti

theorem optBelow_fresh (h : Heap) :
    optBelow (h.alloc).2 (some (h.alloc).1) = true := by
  simp [optBelow, Heap.alloc]


theorem MInv_loadFileBegin (i : Nat) (st1 : MixerState) (hinv : MInv st1)
    (hz : ∀ s, s ∈ st1.slots → s.id = i → liveCount st1.heap s = 0) :
    MInv (loadFileBegin i st1).1 ∧
      (loadFileBegin i st1).2 < (loadFileBegin i st1).1.heap.next ∧
      ∀ s, s ∈ (loadFileBegin i st1).1.slots → s.id = i →
        liveSrc (loadFileBegin i st1).1.heap s.oscillator = 0 ∧
          liveSrc (loadFileBegin i st1).1.heap s.noise = 0 := by
  have hle2 := heapLE_alloc st1.heap
  refine ⟨?_, ?_, ?_⟩
  · show MInv
        { slots := updSlot i
            (fun s => { s with player := some (st1.heap.alloc).1 }) st1.slots
          controls := st1.controls
          heap := (st1.heap.alloc).2
          alerts := st1.alerts }
    refine MInv_mk hinv (heapOK_alloc hinv.1) hle2 (fun s => rfl) ?_
    intro s hmem hid hsOK
    obtain ⟨b1, b2, b3, b4⟩ := idsBelow_parts (slotOK_parts hsOK).1
    obtain ⟨z1, z2, z3⟩ := liveCount_parts (hz s hmem hid)
    refine slotOK_intro ?_ ?_
    · show (optBelow (st1.heap.alloc).2 s.oscillator &&
        optBelow (st1.heap.alloc).2 s.noise &&
        optBelow (st1.heap.alloc).2 (some (st1.heap.alloc).1) &&
        optBelow (st1.heap.alloc).2 s.filter) = true
      rw [optBelow_fresh, optBelow_mono hle2.1 b1, optBelow_mono hle2.1 b2,
        optBelow_mono hle2.1 b4]
      rfl
    · show liveSrc (st1.heap.alloc).2 s.oscillator +
        liveSrc (st1.heap.alloc).2 s.noise +
        liveSrc (st1.heap.alloc).2 (some (st1.heap.alloc).1) ≤ 1
      rw [liveSrc_zero_mono hle2 b1 z1, liveSrc_zero_mono hle2 b2 z2]
      have := liveSrc_le_one (st1.heap.alloc).2 (some (st1.heap.alloc).1)
      omega
  · show (st1.heap.alloc).1 < (st1.heap.alloc).2.next
    simp [Heap.alloc]
  · intro s hmem hid
    have hmem2 : s ∈ updSlot i
        (fun s => { s with player := some (st1.heap.alloc).1 }) st1.slots :=
      hmem
    rcases List.mem_map.mp hmem2 with ⟨t, ht, rfl⟩
    by_cases hti : t.id = i
    · obtain ⟨z1, z2, z3⟩ := liveCount_parts (hz t ht hti)
      have hokt : slotOK st1.heap t = true := by
        have hok := hinv.2.2
        simp only [slotsOK, List.all_eq_true] at hok
        exact hok t ht
      obtain ⟨b1, b2, b3, b4⟩ := idsBelow_parts (slotOK_parts hokt).1
      rw [if_pos hti]
      exact ⟨liveSrc_zero_mono hle2 b1 z1, liveSrc_zero_mono hle2 b2 z2⟩
    · rw [if_neg hti] at hid
      exact absurd hid hti

theorem MInv_loadFileResolve (i : Nat) (name path : String) (pid : Nat)
    (env : FileLoadEnv) (st2 : MixerState) (hinv : MInv st2)
    (hpid : pid < st2.heap.next)
    (hz2 : ∀ s, s ∈ st2.slots → s.id = i →
      liveSrc st2.heap s.oscillator = 0 ∧ liveSrc st2.heap s.noise = 0) :
    MInv (loadFileResolve i name path pid env st2) := by
  unfold loadFileResolve
  by_cases hr : (runMBFileLoad path env).started = true
  · rw [if_pos hr]
    refine MInv_mk hinv hinv.1 (heapLE_refl _) (fun s => rfl) ?_
    intro s hmem hid hsOK
    obtain ⟨b1, b2, b3, b4⟩ := idsBelow_parts (slotOK_parts hsOK).1
    obtain ⟨zo, zn⟩ := hz2 s hmem hid
    refine slotOK_intro ?_ ?_
    · show (optBelow st2.heap s.oscillator && optBelow st2.heap s.noise &&
        optBelow st2.heap (some pid) && optBelow st2.heap s.filter) = true
      have hp : optBelow st2.heap (some pid) = true := by
        simp [optBelow, hpid]
      rw [b1, b2, hp, b4]
      rfl
    · show liveSrc st2.heap s.oscillator + liveSrc st2.heap s.noise +
        liveSrc st2.heap (some pid) ≤ 1
      rw [zo, zn]
      have := liveSrc_le_one st2.heap (some pid)
      omega
  · rw [if_neg hr]
    refine MInv_mk hinv hinv.1 (heapLE_refl _) (fun s => rfl) ?_
    intro s hmem hid hsOK
    obtain ⟨b1, b2, b3, b4⟩ := idsBelow_parts (slotOK_parts hsOK).1
    obtain ⟨zo, zn⟩ := hz2 s hmem hid
    refine slotOK_intro ?_ ?_
    · show (optBelow st2.heap s.oscillator && optBelow st2.heap s.noise &&
        optBelow st2.heap none && optBelow st2.heap s.filter) = true
      rw [b1, b2, b4]
      rfl
    · show liveSrc st2.heap s.oscillator + liveSrc st2.heap s.noise +
        liveSrc st2.heap none ≤ 1
      rw [zo, zn]
      exact Nat.zero_le 1

theorem MInv_loadStart (i : Nat) (name : String) (d : SoundType)
    (env : FileLoadEnv) (st1 : MixerState) (hinv : MInv st1)
    (hz : ∀ s, s ∈ st1.slots → s.id = i → liveCount st1.heap s = 0) :
    MInv (loadStart i name d env st1) := by
  have hle2 := heapLE_alloc st1.heap
  cases d with
  | freq hzv =>
    show MInv
        { slots := updSlot i
            (fun s => { s with
              oscillator := some (st1.heap.alloc).1
              isLoading := false, isPlaying := true }) st1.slots
          controls := st1.controls
          heap := (st1.heap.alloc).2
          alerts := st1.alerts }
    refine MInv_mk hinv (heapOK_alloc hinv.1) hle2 (fun s => rfl) ?_
    intro s hmem hid hsOK
    obtain ⟨b1, b2, b3, b4⟩ := idsBelow_parts (slotOK_parts hsOK).1
    obtain ⟨z1, z2, z3⟩ := liveCount_parts (hz s hmem hid)
    refine slotOK_intro ?_ ?_
    · show (optBelow (st1.heap.alloc).2 (some (st1.heap.alloc).1) &&
        optBelow (st1.heap.alloc).2 s.noise &&
        optBelow (st1.heap.alloc).2 s.player &&
        optBelow (st1.heap.alloc).2 s.filter) = true
      rw [optBelow_fresh, optBelow_mono hle2.1 b2, optBelow_mono hle2.1 b3,
        optBelow_mono hle2.1 b4]
      rfl
    · show liveSrc (st1.heap.alloc).2 (some (st1.heap.alloc).1) +
        liveSrc (st1.heap.alloc).2 s.noise +
        liveSrc (st1.heap.alloc).2 s.player ≤ 1
      rw [liveSrc_zero_mono hle2 b2 z2, liveSrc_zero_mono hle2 b3 z3]
      have := liveSrc_le_one (st1.heap.alloc).2 (some (st1.heap.alloc).1)
      omega
  | noise c =>
    by_cases hcol : c = "green" ∨ c = "bath"
    · have hle3 : heapLE st1.heap ((st1.heap.alloc).2.alloc).2 :=
        heapLE_trans hle2 (heapLE_alloc _)
      simp only [loadStart, if_pos hcol]
      refine MInv_mk hinv (heapOK_alloc (heapOK_alloc hinv.1)) hle3
        (fun s => rfl) ?_
      intro s hmem hid hsOK
      obtain ⟨b1, b2, b3, b4⟩ := idsBelow_parts (slotOK_parts hsOK).1
      obtain ⟨z1, z2, z3⟩ := liveCount_parts (hz s hmem hid)
      refine slotOK_intro ?_ ?_
      · show (optBelow ((st1.heap.alloc).2.alloc).2 s.oscillator &&
          optBelow ((st1.heap.alloc).2.alloc).2 (some (st1.heap.alloc).1) &&
          optBelow ((st1.heap.alloc).2.alloc).2 s.player &&
          optBelow ((st1.heap.alloc).2.alloc).2
            (some ((st1.heap.alloc).2.alloc).1)) = true
        have hnid : optBelow ((st1.heap.alloc).2.alloc).2
            (some (st1.heap.alloc).1) = true := by
          simp only [optBelow, Heap.alloc, decide_eq_true_eq]
          omega
        rw [hnid, optBelow_fresh, optBelow_mono hle3.1 b1,
          optBelow_mono hle3.1 b3]
        rfl
      · show liveSrc ((st1.heap.alloc).2.alloc).2 s.oscillator +
          liveSrc ((st1.heap.alloc).2.alloc).2 (some (st1.heap.alloc).1) +
          liveSrc ((st1.heap.alloc).2.alloc).2 s.player ≤ 1
        rw [liveSrc_zero_mono hle3 b1 z1, liveSrc_zero_mono hle3 b3 z3]
        have := liveSrc_le_one ((st1.heap.alloc).2.alloc).2
          (some (st1.heap.alloc).1)
        omega
    · simp only [loadStart, if_neg hcol]
      refine MInv_mk hinv (heapOK_alloc hinv.1) hle2 (fun s => rfl) ?_
      intro s hmem hid hsOK
      obtain ⟨b1, b2, b3, b4⟩ := idsBelow_parts (slotOK_parts hsOK).1
      obtain ⟨z1, z2, z3⟩ := liveCount_parts (hz s hmem hid)
      refine slotOK_intro ?_ ?_
      · show (optBelow (st1.heap.alloc).2 s.oscillator &&
          optBelow (st1.heap.alloc).2 (some (st1.heap.alloc).1) &&
          optBelow (st1.heap.alloc).2 s.player &&
          optBelow (st1.heap.alloc).2 none) = true
        rw [optBelow_fresh, optBelow_mono hle2.1 b1, optBelow_mono hle2.1 b3]
        rfl
      · show liveSrc (st1.heap.alloc).2 s.oscillator +
          liveSrc (st1.heap.alloc).2 (some (st1.heap.alloc).1) +
          liveSrc (st1.heap.alloc).2 s.player ≤ 1
        rw [liveSrc_zero_mono hle2 b1 z1, liveSrc_zero_mono hle2 b3 z3]
        have := liveSrc_le_one (st1.heap.alloc).2 (some (st1.heap.alloc).1)
        omega
  | file path =>
    obtain ⟨hb1, hb2, hb3⟩ := MInv_loadFileBegin i st1 hinv hz
    exact MInv_loadFileResolve i name path (loadFileBegin i st1).2 env
      (loadFileBegin i st1).1 hb1 hb2 hb3

theorem MInv_loadSound (i : Nat) (name : String) (d : SoundType)
    (env : FileLoadEnv) (st : MixerState) (hinv : MInv st) :
    MInv (loadSound i name d env st) := by
  unfold loadSound
  cases st.controls[i - 1]? with
  | none => exact hinv
  | some g =>
    obtain ⟨h1, h2⟩ := MInv_loadPhase1 i name d st hinv
    exact MInv_loadStart i name d env _ h1 h2

theorem MInv_mstep (a : MAction) (st : MixerState) (hinv : MInv st) :
    MInv (mstep a st) := by
  cases a with
  | load i name d env => exact MInv_loadSound i name d env st hinv
  | toggle i => exact MInv_toggleSlot i st hinv
  | remove i => exact MInv_removeSound i st hinv
  | setVol i v => exact MInv_updateVolume i v st hinv
  | mute i => exact MInv_toggleMute i st hinv

theorem MInv_mrun (acts : List MAction) (st : MixerState) (hinv : MInv st) :
    MInv (mrun acts st) := by
  induction acts generalizing st with
  | nil => exact hinv
  | cons a rest ih => exact ih (mstep a st) (MInv_mstep a st hinv)

theorem MInv_minit : MInv minit :=
  ⟨rfl, rfl, rfl⟩

/-! ### Target and frame lemmas -/

theorem getElem?_updSlot_self {l : List Slot} {i : Nat} {f : Slot → Slot}
    {slot : Slot} (hslot : l[i - 1]? = some slot) (hid : slot.id = i) :
    (updSlot i f l)[i - 1]? = some (f slot) := by
  rw [getElem?_updSlot, hslot]
  simp [hid]

theorem getElem?_updSlot_other {l : List Slot} {i k : Nat} {f : Slot → Slot}
    {t : Slot} (ht : l[k]? = some t) (hne : t.id ≠ i) :
    (updSlot i f l)[k]? = some t := by
  rw [getElem?_updSlot, ht]
  simp [hne]

/-- A slot state field holds a given handle id. -/
def ownsId (s : Slot) (id : Nat) : Prop :=
  s.oscillator = some id ∨ s.noise = some id ∨ s.player = some id ∨
    s.filter = some id

instance (s : Slot) (id : Nat) : Decidable (ownsId s id) := by
  unfold ownsId
  infer_instance

theorem alive_dispose_ne (h : Heap) (o : Option Nat) {id : Nat}
    (hne : o ≠ some id) : (h.dispose o).alive id = h.alive id := by
  cases o with
  | none => rfl
  | some x =>
    have hx : x ≠ id := fun he => hne (by rw [he])
    by_cases hm : id ∈ h.dead
    · simp [Heap.dispose, Heap.alive, hm, List.mem_cons]
    · simp [Heap.dispose, Heap.alive, hm, List.mem_cons, Ne.symm hx]

theorem alive_alloc_of_lt {h : Heap} {id : Nat} (hlt : id < h.next) :
    (h.alloc).2.alive id = h.alive id := by
  simp only [Heap.alive, Heap.alloc]
  have h1 : decide (id < h.next + 1) = true := by
    simp only [decide_eq_true_eq]
    omega
  have h2 : decide (id < h.next) = true := by
    simp only [decide_eq_true_eq]
    exact hlt
  rw [h1, h2]

theorem alive_dispose4_not_owned (h : Heap) (u : Slot) {id : Nat}
    (hno : ¬ ownsId u id) : (dispose4 h u).alive id = h.alive id := by
  unfold ownsId at hno
  push_neg at hno
  unfold dispose4
  rw [alive_dispose_ne _ _ hno.2.2.2, alive_dispose_ne _ _ hno.2.2.1,
    alive_dispose_ne _ _ hno.2.1, alive_dispose_ne _ _ hno.1]

theorem bufferLoaded_mono (env : FileLoadEnv) {a b : Nat} (hab : a ≤ b)
    (ha : bufferLoaded env a = true) : bufferLoaded env b = true := by
  unfold bufferLoaded at ha ⊢
  cases hk : env.loadedAt with
  | none =>
    rw [hk] at ha
    simp at ha
  | some k =>
    rw [hk] at ha
    show decide (k ≤ b) = true
    have ha2 : decide (k ≤ a) = true := ha
    simp only [decide_eq_true_eq] at ha2 ⊢
    omega

end SoundBoard

/-! ## Environments used by concrete scenarios -/

/-- A load that rejects, as for an HTTP 404 on the audio file. -/
def env404 : FileLoadEnv :=
  { loadThrows := some "Failed to fetch: 404 Not Found", loadedAt := none
    duration := 0, durationNaN := false }

/-- A load whose buffer is ready immediately with a sane duration. -/
def envQuick : FileLoadEnv :=
  { loadThrows := none, loadedAt := some 0, duration := 180
    durationNaN := false }

/-- Environment for a `toggleSound` call that needs no file loading. -/
def envTone : SoundPlayer.PEnv :=
  { toneStartFails := false, fileEnv := envQuick }

theorem finishFileLoad_spec (path : String) (env : FileLoadEnv) (a : Nat) :
    (finishFileLoad path env a).attemptsUsed = a ∧
      ((finishFileLoad path env a).started = true ↔
        (env.duration ≠ 0 ∧ env.durationNaN = false)) ∧
      ((finishFileLoad path env a).started = false →
        (finishFileLoad path env a).errorMsg.isSome = true) := by
  unfold finishFileLoad
  by_cases hd : env.duration = 0 ∨ env.durationNaN = true
  · rw [if_pos hd]
    refine ⟨rfl, ?_, fun _ => rfl⟩
    constructor
    · intro h
      exact absurd h (by simp)
    · rintro ⟨h1, h2⟩
      rcases hd with hd | hd
      · exact absurd hd h1
      · rw [hd] at h2
        exact absurd h2 (by simp)
  · rw [if_neg hd]
    push_neg at hd
    refine ⟨rfl, ?_, ?_⟩
    · constructor
      · intro _
        exact ⟨hd.1, by simpa using hd.2⟩
      · intro _
        rfl
    · intro h
      exact absurd h (by simp)

/-- C7: for every file load (in both the single player and the mixer)
the buffer-readiness polling loop makes at most 50 poll attempts; when
playback is started the buffer was confirmed loaded within the polled
window (plus the final extra wait) with a non-zero, non-NaN duration;
and when playback is not started an error is reported instead. -/
theorem c7_load_polling_bounded_and_guarded :
    ∀ (path : String) (env : FileLoadEnv),
      (runSPFileLoad path env).attemptsUsed ≤ 50 ∧
      (runMBFileLoad path env).attemptsUsed ≤ 50 ∧
      ((runSPFileLoad path env).started = true →
        bufferLoaded env ((runSPFileLoad path env).attemptsUsed + 5) = true ∧
          env.duration ≠ 0 ∧ env.durationNaN = false) ∧
      ((runSPFileLoad path env).started = false →
        (runSPFileLoad path env).errorMsg.isSome = true) ∧
      ((runMBFileLoad path env).started = true →
        bufferLoaded env ((runMBFileLoad path env).attemptsUsed + 2) = true ∧
          env.duration ≠ 0 ∧ env.durationNaN = false) ∧
      ((runMBFileLoad path env).started = false →
        (runMBFileLoad path env).errorMsg.isSome = true) := by
  intro path env
  have hpoll : pollBuffer env 0 ≤ 50 := pollBuffer_le env 0 (by omega)
  obtain ⟨fa, fs, fe⟩ := finishFileLoad_spec path env (pollBuffer env 0)
  unfold runSPFileLoad runMBFileLoad
  cases hthrow : env.loadThrows with
  | some m =>
    refine ⟨by simp, by simp, ?_, by simp, ?_, by simp⟩
    · intro hs
      exact absurd hs (by simp)
    · intro hs
      exact absurd hs (by simp)
  | none =>
    dsimp only
    by_cases l1 : bufferLoaded env (pollBuffer env 0) = true
    · rw [if_pos l1]
      by_cases l2 : bufferLoaded env (pollBuffer env 0 + 2) = true
      · rw [if_pos l2]
        refine ⟨by rw [fa]; exact hpoll, by rw [fa]; exact hpoll, ?_, fe, ?_, fe⟩
        · intro hs
          refine ⟨?_, (fs.mp hs).1, (fs.mp hs).2⟩
          rw [fa]
          exact SoundBoard.bufferLoaded_mono env (by omega) l1
        · intro hs
          refine ⟨?_, (fs.mp hs).1, (fs.mp hs).2⟩
          rw [fa]
          exact SoundBoard.bufferLoaded_mono env (by omega) l1
      · exact absurd (SoundBoard.bufferLoaded_mono env (by omega) l1) l2
    · rw [if_neg l1]
      by_cases l5 : bufferLoaded env (pollBuffer env 0 + 5) = true
      · rw [if_pos l5]
        by_cases l2 : bufferLoaded env (pollBuffer env 0 + 2) = true
        · rw [if_pos l2]
          refine ⟨by rw [fa]; exact hpoll, by rw [fa]; exact hpoll, ?_, fe, ?_, fe⟩
          · intro hs
            refine ⟨?_, (fs.mp hs).1, (fs.mp hs).2⟩
            rw [fa]
            exact l5
          · intro hs
            refine ⟨?_, (fs.mp hs).1, (fs.mp hs).2⟩
            rw [fa]
            exact SoundBoard.bufferLoaded_mono env (by omega) l2
        · rw [if_neg l2]
          refine ⟨by rw [fa]; exact hpoll, by simp; omega, ?_, fe, ?_, ?_⟩
          · intro hs
            refine ⟨?_, (fs.mp hs).1, (fs.mp hs).2⟩
            rw [fa]
            exact l5
          · intro hs
            exact absurd hs (by simp)
          · intro _
            simp
      · rw [if_neg l5]
        by_cases l2 : bufferLoaded env (pollBuffer env 0 + 2) = true
        · exact absurd (SoundBoard.bufferLoaded_mono env (by omega) l2) l5
        · rw [if_neg l2]
          refine ⟨by simp; omega, by simp; omega, ?_, ?_, ?_, ?_⟩
          · intro hs
            exact absurd hs (by simp)
          · intro _
            simp
          · intro hs
            exact absurd hs (by simp)
          · intro _
            simp

/-- Closed witness for C7: a load whose buffer is ready immediately
starts playback within the poll bound with a valid duration. -/
theorem c7_witness :
    (runSPFileLoad "/528hz.mp3" envQuick).attemptsUsed ≤ 50 ∧
      bufferLoaded envQuick
        ((runSPFileLoad "/528hz.mp3" envQuick).attemptsUsed + 5) = true ∧
      envQuick.duration ≠ 0 ∧ envQuick.durationNaN = false :=
  ⟨(c7_load_polling_bounded_and_guarded "/528hz.mp3" envQuick).1,
    (c7_load_polling_bounded_and_guarded "/528hz.mp3" envQuick).2.2.1
      (by decide)⟩

/-- C3: muting and then unmuting a channel, with no explicit volume
change in between, restores the effective volume to exactly the prior
level: in the single player `toggleMute` twice restores the gain value
to the remembered volume, and in each mixer slot the gain node is set
back to the slot's stored volume. -/
theorem c3_mute_unmute_restores_volume :
    (∀ p : SoundPlayer.PlayerState, p.isMuted = false →
      SoundPlayer.effectiveVolume
          (SoundPlayer.toggleMute (SoundPlayer.toggleMute p)) =
        some p.volume ∧
      (SoundPlayer.toggleMute (SoundPlayer.toggleMute p)).isMuted = false ∧
      (SoundPlayer.toggleMute (SoundPlayer.toggleMute p)).volume =
        p.volume) ∧
    (∀ (st : SoundBoard.MixerState) (i : Nat) (slot : SoundBoard.Slot)
        (g : SoundBoard.GainValue),
      st.slots[i - 1]? = some slot → slot.id = i → slot.isMuted = false →
      st.controls[i - 1]? = some g →
      (SoundBoard.toggleMute i (SoundBoard.toggleMute i st)).controls[i - 1]? =
        some (SoundBoard.GainValue.db slot.volume) ∧
      (SoundBoard.toggleMute i (SoundBoard.toggleMute i st)).slots[i - 1]? =
        some { slot with isMuted := false }) := by
  constructor
  · intro p hm
    simp [SoundPlayer.toggleMute, SoundPlayer.effectiveVolume, hm]
  · intro st i slot g hslot hid hm hctrl
    have hlen : i - 1 < st.controls.length :=
      (List.getElem?_eq_some_iff.mp hctrl).1
    have e1 : SoundBoard.toggleMute i st =
        { slots := SoundBoard.updSlot i
            (fun s => { s with isMuted := !s.isMuted }) st.slots
          controls := st.controls.set (i - 1) SoundBoard.GainValue.neginf
          heap := st.heap
          alerts := st.alerts } := by
      unfold SoundBoard.toggleMute
      rw [hslot]
      dsimp only
      rw [hm]
      rfl
    have hslot2 : (SoundBoard.updSlot i
        (fun s => { s with isMuted := !s.isMuted }) st.slots)[i - 1]? =
        some { slot with isMuted := !slot.isMuted } :=
      SoundBoard.getElem?_updSlot_self hslot hid
    rw [e1]
    unfold SoundBoard.toggleMute
    rw [hslot2]
    dsimp only
    rw [hm]
    constructor
    · rw [List.getElem?_set_self (by simpa using hlen)]
      rfl
    · rw [SoundBoard.getElem?_updSlot_self hslot2 hid]
      simp [hm]

/-- Closed witness for C3 at the initial states: unmuted volume −12 is
restored exactly after mute followed by unmute. -/
theorem c3_witness :
    SoundPlayer.effectiveVolume
        (SoundPlayer.toggleMute (SoundPlayer.toggleMute SoundPlayer.pinit)) =
      some SoundPlayer.pinit.volume ∧
    (SoundBoard.toggleMute 1
        (SoundBoard.toggleMute 1 SoundBoard.minit)).controls[0]? =
      some (SoundBoard.GainValue.db (SoundBoard.emptySlot 1).volume) :=
  ⟨(c3_mute_unmute_restores_volume.1 SoundPlayer.pinit rfl).1,
    (c3_mute_unmute_restores_volume.2 SoundBoard.minit 1
      (SoundBoard.emptySlot 1) (SoundBoard.GainValue.db (-12))
      (by decide) rfl rfl (by decide)).1⟩

/-- C4: an explicit volume change always un-mutes: in the single
player `handleVolumeChange` clears the mute flag and makes the new
level effective; in the mixer `updateVolume` stores the level, clears
the slot's mute flag and writes the gain node. -/
theorem c4_set_volume_unmutes :
    (∀ (p : SoundPlayer.PlayerState) (v : Int),
      (SoundPlayer.handleVolumeChange v p).isMuted = false ∧
      (SoundPlayer.handleVolumeChange v p).volume = v ∧
      SoundPlayer.effectiveVolume (SoundPlayer.handleVolumeChange v p) =
        some v) ∧
    (∀ (st : SoundBoard.MixerState) (i : Nat) (slot : SoundBoard.Slot)
        (g : SoundBoard.GainValue) (v : Int),
      st.slots[i - 1]? = some slot → slot.id = i →
      st.controls[i - 1]? = some g →
      (SoundBoard.updateVolume i v st).slots[i - 1]? =
        some { slot with volume := v, isMuted := false } ∧
      (SoundBoard.updateVolume i v st).controls[i - 1]? =
        some (SoundBoard.GainValue.db v)) := by
  constructor
  · intro p v
    unfold SoundPlayer.handleVolumeChange SoundPlayer.effectiveVolume
    by_cases hm : p.isMuted = true
    · rw [if_pos hm]
      exact ⟨rfl, rfl, rfl⟩
    · rw [if_neg hm]
      refine ⟨by simpa using hm, rfl, ?_⟩
      show (if p.isMuted = true then none else some v) = some v
      rw [if_neg hm]
  · intro st i slot g v hslot hid hctrl
    have hlen : i - 1 < st.controls.length :=
      (List.getElem?_eq_some_iff.mp hctrl).1
    exact ⟨SoundBoard.getElem?_updSlot_self hslot hid,
      List.getElem?_set_self (by simpa using hlen)⟩

/-- Closed witness for C4: setting −20 dB on a muted channel un-mutes
it in both components. -/
theorem c4_witness :
    (SoundPlayer.handleVolumeChange (-20)
        (SoundPlayer.toggleMute SoundPlayer.pinit)).isMuted = false ∧
    (SoundBoard.updateVolume 1 (-20) SoundBoard.minit).slots[0]? =
      some { SoundBoard.emptySlot 1 with volume := -20, isMuted := false } :=
  ⟨(c4_set_volume_unmutes.1 (SoundPlayer.toggleMute SoundPlayer.pinit)
      (-20)).1,
    (c4_set_volume_unmutes.2 SoundBoard.minit 1 (SoundBoard.emptySlot 1)
      (SoundBoard.GainValue.db (-12)) (-20) (by decide) rfl (by decide)).1⟩

/-- C10: `toggleSlot` on a slot whose selected sound is null returns
the previous state unchanged — a no-op for the whole mixer. -/
theorem c10_toggleSlot_noop_when_empty :
    ∀ (st : SoundBoard.MixerState) (i : Nat) (slot : SoundBoard.Slot),
      st.slots[i - 1]? = some slot → slot.soundDef = none →
      SoundBoard.toggleSlot i st = st := by
  intro st i slot hs hd
  unfold SoundBoard.toggleSlot
  rw [hs]
  dsimp only
  rw [if_pos hd]

/-- Closed witness for C10: toggling the empty slot 2 of the initial
mixer changes nothing. -/
theorem c10_witness :
    SoundBoard.toggleSlot 2 SoundBoard.minit = SoundBoard.minit :=
  c10_toggleSlot_noop_when_empty SoundBoard.minit 2 (SoundBoard.emptySlot 2)
    (by decide) rfl

namespace SoundBoard

theorem frame_loadPhase1 (i : Nat) (name : String) (d : SoundType)
    (st : MixerState) {j : Nat} {t : Slot}
    (ht : st.slots[j - 1]? = some t) (hne : t.id ≠ i)
    (hdisj : ∀ u, st.slots[i - 1]? = some u →
      ∀ id, ownsId t id → ¬ ownsId u id) :
    (loadPhase1 i name d st).slots[j - 1]? = some t ∧
      (loadPhase1 i name d st).controls = st.controls ∧
      (loadPhase1 i name d st).heap.next = st.heap.next ∧
      ∀ id, ownsId t id →
        (loadPhase1 i name d st).heap.alive id = st.heap.alive id := by
  unfold loadPhase1
  cases hu : st.slots[i - 1]? with
  | none => exact ⟨ht, rfl, rfl, fun _ _ => rfl⟩
  | some u =>
    dsimp only
    refine ⟨getElem?_updSlot_other ht hne, rfl, dispose4_next _ _, ?_⟩
    intro id hown
    exact alive_dispose4_not_owned st.heap u (hdisj u hu id hown)

theorem frame_loadStart (i : Nat) (name : String) (d : SoundType)
    (env : FileLoadEnv) (st1 : MixerState) {j : Nat} {t : Slot}
    (ht : st1.slots[j - 1]? = some t) (hne : t.id ≠ i)
    (hfresh : ∀ id, ownsId t id → id < st1.heap.next) :
    (loadStart i name d env st1).slots[j - 1]? = some t ∧
      (loadStart i name d env st1).controls = st1.controls ∧
      ∀ id, ownsId t id →
        (loadStart i name d env st1).heap.alive id = st1.heap.alive id := by
  cases d with
  | freq hzv =>
    refine ⟨getElem?_updSlot_other ht hne, rfl, ?_⟩
    intro id hown
    exact alive_alloc_of_lt (hfresh id hown)
  | noise c =>
    by_cases hcol : c = "green" ∨ c = "bath"
    · simp only [loadStart, if_pos hcol]
      refine ⟨getElem?_updSlot_other ht hne, trivial, ?_⟩
      intro id hown
      have l1 : id < st1.heap.next := hfresh id hown
      have l2 : id < (st1.heap.alloc).2.next := by
        simp only [Heap.alloc]
        omega
      rw [alive_alloc_of_lt l2, alive_alloc_of_lt l1]
    · simp only [loadStart, if_neg hcol]
      refine ⟨getElem?_updSlot_other ht hne, trivial, ?_⟩
      intro id hown
      exact alive_alloc_of_lt (hfresh id hown)
  | file path =>
    have key : loadStart i name (SoundType.file path) env st1 =
        loadFileResolve i name path (loadFileBegin i st1).2 env
          (loadFileBegin i st1).1 := rfl
    rw [key]
    have ht2 : (loadFileBegin i st1).1.slots[j - 1]? = some t :=
      getElem?_updSlot_other ht hne
    have hheap2 : ∀ id, ownsId t id →
        (loadFileBegin i st1).1.heap.alive id = st1.heap.alive id := by
      intro id hown
      exact alive_alloc_of_lt (hfresh id hown)
    unfold loadFileResolve
    by_cases hr : (runMBFileLoad path env).started = true
    · rw [if_pos hr]
      exact ⟨getElem?_updSlot_other ht2 hne, rfl, hheap2⟩
    · rw [if_neg hr]
      exact ⟨getElem?_updSlot_other ht2 hne, rfl, hheap2⟩

end SoundBoard


/-- C9: every per-slot mixer operation (load, play/pause toggle,
remove, volume change, mute toggle) leaves every other slot's state
record, gain control, and the liveness of each handle it owns
unchanged.  The freshness and disjointness hypotheses express that the
observed slot owns previously-allocated handles not shared with the
target slot, which holds in every reachable state. -/
theorem c9_ops_frame_other_slots :
    ∀ (a : SoundBoard.MAction) (st : SoundBoard.MixerState) (j : Nat)
      (t : SoundBoard.Slot),
      st.slots[j - 1]? = some t → t.id = j → 1 ≤ j → 1 ≤ a.target →
      j ≠ a.target →
      (∀ id, SoundBoard.ownsId t id → id < st.heap.next) →
      (∀ u, st.slots[a.target - 1]? = some u →
        ∀ id, SoundBoard.ownsId t id → ¬ SoundBoard.ownsId u id) →
      (SoundBoard.mstep a st).slots[j - 1]? = some t ∧
      (SoundBoard.mstep a st).controls[j - 1]? = st.controls[j - 1]? ∧
      ∀ id, SoundBoard.ownsId t id →
        (SoundBoard.mstep a st).heap.alive id = st.heap.alive id := by
  intro a st j t ht hid hj hi hne hfresh hdisj
  cases a with
  | load i name d env =>
    simp only [SoundBoard.MAction.target] at hi hne hdisj
    simp only [SoundBoard.mstep]
    have htne : t.id ≠ i := by
      rw [hid]
      exact hne
    unfold SoundBoard.loadSound
    cases hc : st.controls[i - 1]? with
    | none => exact ⟨ht, rfl, fun _ _ => rfl⟩
    | some g =>
      dsimp only
      obtain ⟨p1, p2, p3, p4⟩ :=
        SoundBoard.frame_loadPhase1 i name d st ht htne hdisj
      obtain ⟨q1, q2, q3⟩ := SoundBoard.frame_loadStart i name d env _ p1 htne
        (fun id hown => by rw [p3]; exact hfresh id hown)
      refine ⟨q1, ?_, ?_⟩
      · rw [q2, p2]
      · intro id hown
        rw [q3 id hown, p4 id hown]
  | toggle i =>
    simp only [SoundBoard.MAction.target] at hi hne hdisj
    simp only [SoundBoard.mstep]
    have htne : t.id ≠ i := by
      rw [hid]
      exact hne
    unfold SoundBoard.toggleSlot
    cases hu : st.slots[i - 1]? with
    | none => exact ⟨ht, rfl, fun _ _ => rfl⟩
    | some u =>
      dsimp only
      by_cases hsd : u.soundDef = none
      · rw [if_pos hsd]
        exact ⟨ht, rfl, fun _ _ => rfl⟩
      · rw [if_neg hsd]
        by_cases hp : u.isPlaying = true
        · rw [if_pos hp]
          exact ⟨SoundBoard.getElem?_updSlot_other ht htne, rfl,
            fun _ _ => rfl⟩
        · rw [if_neg hp]
          exact ⟨SoundBoard.getElem?_updSlot_other ht htne, rfl,
            fun _ _ => rfl⟩
  | remove i =>
    simp only [SoundBoard.MAction.target] at hi hne hdisj
    simp only [SoundBoard.mstep]
    have htne : t.id ≠ i := by
      rw [hid]
      exact hne
    unfold SoundBoard.removeSound
    cases hu : st.slots[i - 1]? with
    | none => exact ⟨ht, rfl, fun _ _ => rfl⟩
    | some u =>
      dsimp only
      refine ⟨SoundBoard.getElem?_updSlot_other ht htne, rfl, ?_⟩
      intro id hown
      exact SoundBoard.alive_dispose4_not_owned st.heap u
        (hdisj u hu id hown)
  | setVol i v =>
    simp only [SoundBoard.MAction.target] at hi hne hdisj
    simp only [SoundBoard.mstep]
    have htne : t.id ≠ i := by
      rw [hid]
      exact hne
    have hidx : i - 1 ≠ j - 1 := by omega
    unfold SoundBoard.updateVolume
    exact ⟨SoundBoard.getElem?_updSlot_other ht htne,
      List.getElem?_set_ne hidx, fun _ _ => rfl⟩
  | mute i =>
    simp only [SoundBoard.MAction.target] at hi hne hdisj
    simp only [SoundBoard.mstep]
    have htne : t.id ≠ i := by
      rw [hid]
      exact hne
    have hidx : i - 1 ≠ j - 1 := by omega
    unfold SoundBoard.toggleMute
    cases hu : st.slots[i - 1]? with
    | none => exact ⟨ht, rfl, fun _ _ => rfl⟩
    | some u =>
      dsimp only
      exact ⟨SoundBoard.getElem?_updSlot_other ht htne,
        List.getElem?_set_ne hidx, fun _ _ => rfl⟩

/-- Mixer state with a 432 Hz tone loaded and playing in slot 1. -/
def c9state : SoundBoard.MixerState :=
  SoundBoard.loadSound 1 "Healing (432 Hz)" (SoundType.freq 432) envQuick
    SoundBoard.minit

/-- Slot 1 of `c9state`: playing, owning oscillator handle 0. -/
def c9slot : SoundBoard.Slot :=
  { id := 1, soundName := some "Healing (432 Hz)"
    soundDef := some (SoundType.freq 432), isPlaying := true
    isLoading := false, volume := -12, isMuted := false
    oscillator := some 0, noise := none, player := none, filter := none }

/-- The spec scenario for C9: load a file sound into slot 2 while slot
1 is playing. -/
def c9act : SoundBoard.MAction :=
  SoundBoard.MAction.load 2 "Spring Rain" (SoundType.file "/spring-rain.mp3")
    envQuick

/-- Closed witness for C9: loading a sound into mixer slot 2 while
slot 1 plays a tone leaves slot 1's record, gain control and
oscillator liveness untouched. -/
theorem c9_witness :
    (SoundBoard.mstep c9act c9state).slots[0]? = some c9slot ∧
    (SoundBoard.mstep c9act c9state).controls[0]? = c9state.controls[0]? ∧
    ∀ id, SoundBoard.ownsId c9slot id →
      (SoundBoard.mstep c9act c9state).heap.alive id =
        c9state.heap.alive id :=
  c9_ops_frame_other_slots c9act c9state 1 c9slot (by decide) (by decide)
    (by decide) (by decide) (by decide)
    (by
      intro id hown
      simp only [SoundBoard.ownsId, c9slot] at hown
      rcases hown with h | h | h | h
      · rcases h with ⟨⟩
        decide
      · exact absurd h (by simp)
      · exact absurd h (by simp)
      · exact absurd h (by simp))
    (by
      intro u hu id hown
      have h3 : (some u : Option SoundBoard.Slot) =
          some (SoundBoard.emptySlot 2) := by
        rw [← hu]
        decide
      have hu2 : u = SoundBoard.emptySlot 2 :=
        ((Option.some.injEq _ _).mp h3).symm ▸ rfl
      subst hu2
      simp [SoundBoard.ownsId, SoundBoard.emptySlot])

/-- C1 as stated is false on the mixer: after loading "Green Noise"
and then the 432 Hz tone into slot 1, the slot holds BOTH a non-null
noise handle (the disposed previous source, never cleared from state)
and the non-null new oscillator handle. -/
theorem c1_counterexample :
    ((SoundBoard.mrun
        [SoundBoard.MAction.load 1 "Green Noise" (SoundType.noise "green")
          envQuick,
         SoundBoard.MAction.load 1 "Healing (432 Hz)" (SoundType.freq 432)
          envQuick]
        SoundBoard.minit).slots[0]?.map
      (fun s => (s.oscillator.isSome, s.noise.isSome))) = some (true, true) := by
  decide

/-- C1 amended: at most one LIVE (undisposed) source handle is
attached per channel after any sequence of operations — in the single
player even at most one non-null ref — and a load always tears the
previous source down (its live attached count is zero after the
prologue) before the new handle is attached; however, mixer slot state
may retain non-null references to already-disposed handles. -/
theorem c1_amended_one_live_source :
    (∀ acts : List SoundPlayer.PAction,
      SoundPlayer.atMostOneRef (SoundPlayer.prun acts SoundPlayer.pinit)) ∧
    (∀ (acts : List SoundBoard.MAction) (k : Nat) (s : SoundBoard.Slot),
      (SoundBoard.mrun acts SoundBoard.minit).slots[k]? = some s →
      SoundBoard.liveCount (SoundBoard.mrun acts SoundBoard.minit).heap s
        ≤ 1) ∧
    (∀ (i : Nat) (name : String) (d : SoundType)
        (st : SoundBoard.MixerState) (s : SoundBoard.Slot),
      (SoundBoard.loadPhase1 i name d st).slots[i - 1]? = some s →
      SoundBoard.liveCount (SoundBoard.loadPhase1 i name d st).heap s = 0) := by
  refine ⟨?_, ?_, ?_⟩
  · intro acts
    exact SoundPlayer.atMostOneRef_prun acts SoundPlayer.pinit
      (by simp [SoundPlayer.atMostOneRef, SoundPlayer.pinit])
  · intro acts k s hk
    have hinv := SoundBoard.MInv_mrun acts SoundBoard.minit SoundBoard.MInv_minit
    exact (SoundBoard.slotOK_parts (SoundBoard.slotsOK_getElem hinv.2.2 hk)).2
  · intro i name d st s hs
    unfold SoundBoard.loadPhase1 at hs ⊢
    cases hslot : st.slots[i - 1]? with
    | none =>
      rw [hslot] at hs
      dsimp only at hs
      rw [hslot] at hs
      exact absurd hs (by simp)
    | some slot =>
      rw [hslot] at hs
      dsimp only at hs
      rw [SoundBoard.getElem?_updSlot, hslot] at hs
      have hseq := (Option.some.injEq _ _).mp
        (by simpa using hs)
      by_cases hsi : slot.id = i
      · rw [if_pos hsi] at hseq
        rw [← hseq]
        show SoundBoard.liveCount (SoundBoard.dispose4 st.heap slot) slot = 0
        exact SoundBoard.liveCount_dispose4_self st.heap slot
      · rw [if_neg hsi] at hseq
        rw [← hseq]
        exact SoundBoard.liveCount_dispose4_self st.heap slot

/-- The C1 scenario: two successive loads into mixer slot 1. -/
def c1acts : List SoundBoard.MAction :=
  [SoundBoard.MAction.load 1 "Green Noise" (SoundType.noise "green") envQuick,
   SoundBoard.MAction.load 1 "Healing (432 Hz)" (SoundType.freq 432) envQuick]

/-- Slot 1 after both C1 loads: live oscillator 2 plus stale disposed
noise 0 and filter 1 references. -/
def c1slot : SoundBoard.Slot :=
  { id := 1, soundName := some "Healing (432 Hz)"
    soundDef := some (SoundType.freq 432), isPlaying := true
    isLoading := false, volume := -12, isMuted := false
    oscillator := some 2, noise := some 0, player := none, filter := some 1 }

/-- Mixer state after the first C1 load only. -/
def c1state1 : SoundBoard.MixerState :=
  SoundBoard.loadSound 1 "Green Noise" (SoundType.noise "green") envQuick
    SoundBoard.minit

/-- Slot 1 right after the second load's teardown prologue. -/
def c1slotP : SoundBoard.Slot :=
  { id := 1, soundName := some "Healing (432 Hz)"
    soundDef := some (SoundType.freq 432), isPlaying := false
    isLoading := true, volume := -12, isMuted := false
    oscillator := none, noise := some 0, player := none, filter := some 1 }

/-- Closed witness for the amended C1: in the two-load scenario the
final slot has exactly one live source, and after the second load's
prologue it has zero live sources. -/
theorem c1_amended_witness :
    SoundBoard.liveCount (SoundBoard.mrun c1acts SoundBoard.minit).heap
        c1slot ≤ 1 ∧
    SoundBoard.liveCount
        (SoundBoard.loadPhase1 1 "Healing (432 Hz)" (SoundType.freq 432)
          c1state1).heap c1slotP = 0 :=
  ⟨c1_amended_one_live_source.2.1 c1acts 0 c1slot (by decide),
    c1_amended_one_live_source.2.2 1 "Healing (432 Hz)"
      (SoundType.freq 432) c1state1 c1slotP (by decide)⟩

/-- C2 (code bug evaluation): a failed file load does NOT leave the
channel as specified.  In the single player the trailing
`setIsPlaying(!isPlaying)` overrides the catch handler's
`setIsPlaying(false)`, so the channel ends with playing=true and the
selected sound still set, and only a console warning (no user-visible
alert) is produced; in the mixer the slot is cleared and an alert
naming the path is shown, but the failed `Tone.Player` (handle 0) is
never disposed and stays alive as a dangling handle. -/
theorem c2_failed_load_eval :
    (let p := SoundPlayer.prun
        [SoundPlayer.PAction.soundChange "174 Hz (Grounding)",
         SoundPlayer.PAction.toggle
           { toneStartFails := false, fileEnv := env404 }]
        SoundPlayer.pinit;
      p.isPlaying = true ∧ p.selectedSound = "174 Hz (Grounding)" ∧
        p.playerRef = none ∧
        p.warnings = ["Could not load audio file: /174hz.mp3. Error: Failed to fetch: 404 Not Found"]) ∧
    (let st := SoundBoard.loadSound 1 "174 Hz (Grounding)"
        (SoundType.file "/174hz.mp3") env404 SoundBoard.minit;
      (st.slots[0]?.map (fun s => (s.isPlaying, s.soundDef, s.player))) =
          some (false, none, none) ∧
        st.heap.alive 0 = true ∧
        st.alerts = ["Could not load: 174 Hz (Grounding). File path: /174hz.mp3. Error: Failed to fetch: 404 Not Found"]) := by
  decide

/-- C5 (code bug evaluation): starting a numeric-frequency sound with
a preset never starts the countdown — the oscillator branch omits
`isPlayingRef.current = true`, so the timer-install block is skipped
and ticks are no-ops; with a noise sound the very same preset counts
down and auto-stops as the claim describes, showing the omission is a
slip. -/
theorem c5_numeric_preset_no_countdown_eval :
    (let p := SoundPlayer.prun
        [SoundPlayer.PAction.soundChange "Healing (432 Hz)",
         SoundPlayer.PAction.timerChange (some 300),
         SoundPlayer.PAction.toggle envTone]
        SoundPlayer.pinit;
      p.isPlaying = true ∧ p.timerMode = TimerMode.off ∧
        p.isPlayingRef = false ∧ p.timer = 300 ∧ SoundPlayer.tick p = p) ∧
    (let q := SoundPlayer.prun
        [SoundPlayer.PAction.soundChange "Green Noise",
         SoundPlayer.PAction.timerChange (some 2),
         SoundPlayer.PAction.toggle envTone,
         SoundPlayer.PAction.tick, SoundPlayer.PAction.tick]
        SoundPlayer.pinit;
      q.isPlaying = false ∧ q.timer = 0 ∧ q.timerMode = TimerMode.off ∧
        q.noiseRef = none) := by
  decide

/-- C6 as stated is false: stopping via the play/pause toggle after
three countdown ticks leaves the displayed timer at 297, not reset to
the selected preset 300. -/
theorem c6_counterexample :
    (let p := SoundPlayer.prun
        [SoundPlayer.PAction.soundChange "Green Noise",
         SoundPlayer.PAction.timerChange (some 300),
         SoundPlayer.PAction.toggle envTone,
         SoundPlayer.PAction.tick, SoundPlayer.PAction.tick,
         SoundPlayer.PAction.tick,
         SoundPlayer.PAction.toggle envTone]
        SoundPlayer.pinit;
      p.isPlaying = false ∧ p.timerMode = TimerMode.off ∧
        p.selectedTimerDuration = some 300 ∧ p.timer = 297) := by
  decide

/-- C6 amended: every explicit stop clears the interval and returns
the timer to Idle, but only stopping via a sound change resets the
displayed value to the selected preset (or 0); stopping via the
play/pause toggle leaves the displayed value at its last counted
value. -/
theorem c6_amended_stop_behavior :
    (∀ (env : SoundPlayer.PEnv) (p : SoundPlayer.PlayerState),
      p.isPlaying = true →
      (SoundPlayer.toggleSound env p).timerMode = TimerMode.off ∧
      (SoundPlayer.toggleSound env p).isPlaying = false ∧
      (SoundPlayer.toggleSound env p).timer = p.timer) ∧
    (∀ (v : String) (p : SoundPlayer.PlayerState), p.isPlaying = true →
      (SoundPlayer.handleSoundChange v p).timerMode = TimerMode.off ∧
      (SoundPlayer.handleSoundChange v p).isPlaying = false ∧
      (SoundPlayer.handleSoundChange v p).timer =
        p.selectedTimerDuration.getD 0) := by
  constructor
  · intro env p hp
    unfold SoundPlayer.toggleSound
    rw [if_neg (by simp [hp])]
    exact ⟨rfl, rfl, rfl⟩
  · intro v p hp
    unfold SoundPlayer.handleSoundChange
    rw [if_pos hp]
    exact ⟨rfl, rfl, rfl⟩

/-- Single player counting down at 299 with preset 300 selected. -/
def c6p : SoundPlayer.PlayerState :=
  SoundPlayer.prun
    [SoundPlayer.PAction.soundChange "Green Noise",
     SoundPlayer.PAction.timerChange (some 300),
     SoundPlayer.PAction.toggle envTone,
     SoundPlayer.PAction.tick]
    SoundPlayer.pinit

/-- Closed witness for the amended C6 at a concrete counting state. -/
theorem c6_amended_witness :
    (SoundPlayer.toggleSound envTone c6p).timer = c6p.timer ∧
    (SoundPlayer.handleSoundChange "Wind" c6p).timer =
      c6p.selectedTimerDuration.getD 0 :=
  ⟨(c6_amended_stop_behavior.1 envTone c6p (by decide)).2.2,
    (c6_amended_stop_behavior.2 "Wind" c6p (by decide)).2.2⟩

/-- C8 (code bug evaluation): a `removeSound` arriving while a file
load is pending is not detected by the resolved load — there is no
ownership re-check.  The resolved load re-attaches its (by now
disposed) player handle 0, marks the slot playing, and leaves
soundDef=null; no alert is raised either way. -/
theorem c8_superseded_load_attaches_stale_eval :
    (let st1 := SoundBoard.loadPhase1 1 "Spring Rain"
        (SoundType.file "/spring-rain.mp3") SoundBoard.minit;
     let bg := SoundBoard.loadFileBegin 1 st1;
     let st3 := SoundBoard.removeSound 1 bg.1;
     let st4 := SoundBoard.loadFileResolve 1 "Spring Rain"
        "/spring-rain.mp3" bg.2 envQuick st3;
      (st4.slots[0]?.map
        (fun s => (s.isPlaying, s.soundDef, s.soundName, s.player))) =
          some (true, none, none, some 0) ∧
        st4.heap.alive 0 = false ∧ st4.alerts = []) := by
  decide
